import Mathlib

/-!
# Verification development for the hardware/software H.264 decoding program (`src/main.cpp`)

The program is an orchestration shell around an external codec library.  The
embedding below keeps the program's own control flow (the functions
`get_hw_format`, `init_decoder`, `decode_write`, `main`) and treats every
library call as an oracle of the environment `Env`.

* The state of the program is explicit: `State` carries the history of library
  calls made so far (`trace`), the bytes accepted by `output_file` (`out`) and the
  process-wide variable `hw_pix_fmt`.
* Every stateful library call is answered by an oracle that sees the whole
  history of calls made before it, so any deterministic behaviour of the library
  (and of the file system) is covered.
* The two loops of `main` that need not end (the packet loop and the flush loop)
  take a fuel argument; a run that exhausts it reports `none` as its status.
* Diagnostic output (`printf`, `fprintf(stderr, ...)`) is not modelled.
* C `int` values are modelled as `Int`.  The one `int` product of the program,
  the row offset `i * linesize` of the plane loops, is taken as a 32-bit
  two's-complement `int` (`wrap_int32`): where the mathematical product does
  not fit, the program addresses the wrapped offset.
* Plane memory is a total function from byte offsets to bytes, so a read is
  defined at every offset; whether the offset lies inside the buffer that the
  library allocated is not tracked.
-/

namespace HwDecode

/-! ## Library constants -/

/-- A byte of plane memory or of the output file. -/
abbrev Byte := Fin 256

/-- The library's error macro: `AVERROR(e)` is `-e`. -/
def AVERROR (e : Int) : Int := -e

/-- The errno value `EAGAIN` (35 on the platform that has VideoToolbox). -/
def EAGAIN : Int := 35

/-- The errno value `ENOMEM`. -/
def ENOMEM : Int := 12

/-- The library's tag macro: `MKTAG(a,b,c,d) = a | (b << 8) | (c << 16) | (d << 24)`. -/
def MKTAG (a b c d : Nat) : Nat := a ||| (b <<< 8) ||| (c <<< 16) ||| (d <<< 24)

/-- The library's end-of-stream code: `AVERROR_EOF = FFERRTAG('E','O','F',' ')`,
the negated tag of the four characters (codes 0x45, 0x4F, 0x46, 0x20). -/
def AVERROR_EOF : Int := -((MKTAG 0x45 0x4F 0x46 0x20 : Nat) : Int)

/-- The library's "no format" pixel format, `AV_PIX_FMT_NONE = -1`. -/
def AV_PIX_FMT_NONE : Int := -1

/-- The library's media type of video streams, `AVMEDIA_TYPE_VIDEO = 0`. -/
def AVMEDIA_TYPE_VIDEO : Int := 0

/-- The library's codec identifier of H.264, `AV_CODEC_ID_H264 = 27`. -/
def AV_CODEC_ID_H264 : Int := 27

/-- The value of a 32-bit two's-complement `int` that holds `x` modulo `2^32`. -/
def wrap_int32 (x : Int) : Int := (x + 2 ^ 31) % 2 ^ 32 - 2 ^ 31

/-- The value fits in a 32-bit `int`. -/
def fits_int32 (x : Int) : Prop := -(2 ^ 31) ≤ x ∧ x < 2 ^ 31

instance (x : Int) : Decidable (fits_int32 x) := by
  unfold fits_int32
  infer_instance

/-- The row offsets `i * linesize` of the rows `i = 0 .. n-1` all fit in a 32-bit
`int`: the `int` product of the plane loops does not overflow. -/
def rows_fit (n : Nat) (linesize : Int) : Prop :=
  ∀ i : Nat, i < n → fits_int32 ((i : Int) * linesize)

instance (n : Nat) (linesize : Int) : Decidable (rows_fit n linesize) := by
  unfold rows_fit
  infer_instance

/-! ## Data model -/

/-- A decoder implementation (`AVCodec`); the program reads only its name. -/
structure AVCodec where
  name : String
deriving DecidableEq, Repr

/-- A decoder context (`AVCodecContext`); `decode_write` reads `avctx->codec->name`. -/
structure AVCodecContext where
  codec : AVCodec
deriving DecidableEq, Repr

/-- A compressed packet (`AVPacket`): the stream it belongs to and its payload. -/
structure AVPacket where
  stream_index : Int
  data : List Byte
deriving DecidableEq, Repr

/-- The packet as left by `av_packet_alloc` and `av_packet_unref`. -/
def AVPacket.blank : AVPacket := { stream_index := 0, data := [] }

/-- A stream of the input container; the program reads `codecpar->codec_type`. -/
structure AVStream where
  codec_type : Int
deriving DecidableEq, Repr

/-- A decoded frame (`AVFrame`).  `data k` is the memory of plane `k`, addressed
by the byte offset from the plane pointer `data[k]`; `linesize k` is its stride.
`width`, `height`, `format` and the strides are C `int`s. -/
structure AVFrame where
  width : Int
  height : Int
  format : Int
  linesize : Nat → Int
  data : Nat → Int → Byte

/-- One library call made by the program, with the arguments and results the
program can observe.  `yuv_write_begin` is a marker (no library call): the
program has reached the plane-writing section of `decode_write` (line 145). -/
inductive Event where
  | avcodec_find_decoder_by_name (name : String) (found : Bool)
  | avcodec_find_decoder (id : Int) (found : Bool)
  | av_hwdevice_ctx_create (ret : Int)
  | av_buffer_ref (ok : Bool)
  | av_buffer_unref (held : Bool)
  | avformat_open_input (path : String) (ret : Int)
  | avformat_find_stream_info (ret : Int)
  | avcodec_alloc_context3 (ok : Bool)
  | avcodec_parameters_to_context (ret : Int)
  | avcodec_open2 (ret : Int)
  | fopen (path : String) (err : Option Nat)
  | av_packet_alloc (ok : Bool)
  | av_read_frame (ret : Int) (stream_index : Int)
  | av_packet_unref
  | avcodec_send_packet (pkt : Option AVPacket) (ret : Int)
  | av_frame_alloc (ok : Bool)
  | avcodec_receive_frame (ret : Int)
  | av_hwframe_transfer_data (ret : Int)
  | av_frame_free
  | yuv_write_begin
  | fwrite (buf : List Byte) (written : Nat)
  | fclose
  | av_packet_free (held : Bool)
  | avcodec_free_context (held : Bool)
  | avformat_close_input (held : Bool)
deriving DecidableEq, Repr

/-- The environment: the codec library, the input container and the file
system.  Each oracle of a stateful call receives the history of calls made
before it.  The decoder registry is static. -/
structure Env where
  /-- the value of the enum constant `AV_PIX_FMT_VIDEOTOOLBOX` -/
  AV_PIX_FMT_VIDEOTOOLBOX : Int
  /-- the call `avcodec_find_decoder_by_name(name)`: `none` is `NULL` -/
  avcodec_find_decoder_by_name : String → Option AVCodec
  /-- the call `avcodec_find_decoder(id)`: `none` is `NULL` -/
  avcodec_find_decoder : Int → Option AVCodec
  /-- the call `av_hwdevice_ctx_create(...)`: the return code -/
  av_hwdevice_ctx_create : List Event → Int
  /-- the call `av_buffer_ref(...)`: whether a new reference was returned -/
  av_buffer_ref : List Event → Bool
  /-- the call `avformat_open_input(...)`: the return code -/
  avformat_open_input : List Event → String → Int
  /-- the call `avformat_find_stream_info(...)`: the return code -/
  avformat_find_stream_info : List Event → Int
  /-- the array `input_ctx->streams[0 .. nb_streams-1]` after the stream information is read -/
  streams : List Event → List AVStream
  /-- the call `avcodec_alloc_context3(decoder)`: whether a context was returned -/
  avcodec_alloc_context3 : List Event → Bool
  /-- the call `avcodec_parameters_to_context(...)`: the return code -/
  avcodec_parameters_to_context : List Event → Int
  /-- the call `avcodec_open2(...)`: the return code -/
  avcodec_open2 : List Event → Int
  /-- the call `fopen(path, "wb")`: `none` on success; on failure `some errno`, the
  value of `errno` that line 272 reads (positive on a POSIX system) -/
  fopen : List Event → String → Option Nat
  /-- the call `av_packet_alloc()`: whether a packet was returned -/
  av_packet_alloc : List Event → Bool
  /-- the call `av_read_frame(input_ctx, packet)`: the return code and the packet it leaves -/
  av_read_frame : List Event → Int × AVPacket
  /-- the call `avcodec_send_packet(avctx, pkt)`: the return code (`none` is the `NULL` packet) -/
  avcodec_send_packet : List Event → Option AVPacket → Int
  /-- the call `av_frame_alloc()`: whether a frame was returned -/
  av_frame_alloc : List Event → Bool
  /-- the call `avcodec_receive_frame(avctx, frame)`: the return code and the frame it fills -/
  avcodec_receive_frame : List Event → Int × AVFrame
  /-- the call `av_hwframe_transfer_data(dst, src, 0)`: the return code and the filled `dst` -/
  av_hwframe_transfer_data : List Event → AVFrame → Int × AVFrame
  /-- the call `fwrite(buf, 1, n, output_file)`: how many of the bytes the stream accepts
  (the call returns the minimum of this and `n`) -/
  fwrite_accepts : List Event → List Byte → Nat

/-- The program state threaded through the model. -/
structure State where
  /-- history of library calls, oldest first -/
  trace : List Event
  /-- bytes accepted by `output_file` so far -/
  out : List Byte
  /-- the process-wide `static enum AVPixelFormat hw_pix_fmt` (line 13) -/
  hw_pix_fmt : Int
deriving DecidableEq, Repr

/-- Record a library call in the history. -/
def State.log (st : State) (e : Event) : State :=
  { st with trace := st.trace ++ [e] }

/-- The state at process start: no call made, nothing written, and the static
`hw_pix_fmt` zero-initialised. -/
def State.start : State := { trace := [], out := [], hw_pix_fmt := 0 }

/-! ## `get_hw_format` (lines 37-47) -/

/-- The format negotiation callback.  The array `pix_fmts` is given as the list
of the `int` cells starting at the pointer; the scan stops at the first `-1`.
`none` means that the scan left the given cells (no terminator among them). -/
def get_hw_format (hw_pix_fmt : Int) : List Int → Option Int
  | [] => none
  | p :: rest =>
    if p = -1 then some AV_PIX_FMT_NONE
    else if p = hw_pix_fmt then some p
    else get_hw_format hw_pix_fmt rest

/-! ## `init_decoder` (lines 50-78) -/

/-- Lines 69-77 of `init_decoder`: the software fallback. -/
def init_decoder_fallback (E : Env) (st : State) : Option AVCodec × State :=
  let decoder := E.avcodec_find_decoder AV_CODEC_ID_H264
  (decoder, st.log (.avcodec_find_decoder AV_CODEC_ID_H264 decoder.isSome))

/-- The decoder selector. -/
def init_decoder (E : Env) (st : State) : Option AVCodec × State :=
  let decoder := E.avcodec_find_decoder_by_name "h264_videotoolbox"
  let st := st.log (.avcodec_find_decoder_by_name "h264_videotoolbox" decoder.isSome)
  match decoder with
  | some d =>
    let ret := E.av_hwdevice_ctx_create st.trace
    let st := st.log (.av_hwdevice_ctx_create ret)
    if 0 ≤ ret then
      (some d, st.log (.av_buffer_unref true))
    else init_decoder_fallback E st
  | none => init_decoder_fallback E st

/-! ## `decode_write` (lines 80-164) -/

/-- The `n` bytes of `mem` starting at offset `off`. -/
def read_bytes (mem : Int → Byte) (off : Int) (n : Nat) : List Byte :=
  (List.range n).map (fun (j : Nat) => mem (off + (j : Int)))

/-- The call `fwrite(buf, 1, n, output_file)` with `buf` the `n` bytes passed:
the stream takes the first `k` of them, `k` the number it accepts, and the call
returns `k`. -/
def fwrite (E : Env) (buf : List Byte) (st : State) : Nat × State :=
  let k := min (E.fwrite_accepts st.trace buf) buf.length
  (k, { st with trace := st.trace ++ [Event.fwrite buf k], out := st.out ++ buf.take k })

/-- One of the three row loops (lines 146-149, 151-154, 156-159):
`for (i = i0; i < i0 + n; i++) fwrite(data + i * linesize, 1, count, output_file);`
with the result of `fwrite` discarded.  The offset `i * linesize` is the product
of two `int`s, hence a 32-bit `int`, which is then added to the plane pointer. -/
def write_plane (E : Env) (data : Int → Byte) (linesize : Int) (count : Nat) :
    Nat → Int → State → State
  | 0, _, st => st
  | n + 1, i, st =>
    write_plane E data linesize count n (i + 1)
      (fwrite E (read_bytes data (wrap_int32 (i * linesize)) count) st).2

/-- Lines 145-159: the three row loops over `tmp_frame`.  `width` is the byte
count of a row of plane 0 and `width/2` (C division, rounding toward zero) of
planes 1 and 2.  A loop with a bound that is not positive runs no iteration.  A
negative byte count (in C converted to a huge `size_t`, an out-of-bounds read)
is outside the model and taken as zero. -/
def write_yuv (E : Env) (tmp_frame : AVFrame) (st : State) : State :=
  let st := st.log .yuv_write_begin
  let st := write_plane E (tmp_frame.data 0) (tmp_frame.linesize 0)
    tmp_frame.width.toNat tmp_frame.height.toNat 0 st
  let st := write_plane E (tmp_frame.data 1) (tmp_frame.linesize 1)
    (tmp_frame.width.tdiv 2).toNat (tmp_frame.height.tdiv 2).toNat 0 st
  write_plane E (tmp_frame.data 2) (tmp_frame.linesize 2)
    (tmp_frame.width.tdiv 2).toNat (tmp_frame.height.tdiv 2).toNat 0 st

/-- Lines 121-163 of `decode_write`: from the test of the received frame's
format to the return.  `frame` is the frame that `avcodec_receive_frame` filled
and `st` the state after that call. -/
def decode_write_frame (E : Env) (using_hw_decoder : Bool) (frame : AVFrame) (st : State) :
    Int × State :=
  -- line 122
  if using_hw_decoder && decide (frame.format = st.hw_pix_fmt) then
    -- line 124
    let sw_ok := E.av_frame_alloc st.trace
    let st := st.log (.av_frame_alloc sw_ok)
    if !sw_ok then (AVERROR ENOMEM, st.log .av_frame_free) else
    -- line 132
    let t := E.av_hwframe_transfer_data st.trace frame
    let ret := t.1
    let sw_frame := t.2
    let st := st.log (.av_hwframe_transfer_data ret)
    if ret < 0 then (ret, (st.log .av_frame_free).log .av_frame_free) else
    -- lines 139, 145-163
    let st := write_yuv E sw_frame st
    (0, (st.log .av_frame_free).log .av_frame_free)
  else
    -- lines 142, 145-163
    let st := write_yuv E frame st
    (0, st.log .av_frame_free)

/-- The function `decode_write`: returns its `int` result and the new state. -/
def decode_write (E : Env) (avctx : AVCodecContext) (packet : AVPacket) (st : State) :
    Int × State :=
  -- line 85
  let using_hw_decoder : Bool := avctx.codec.name == "h264_videotoolbox"
  -- line 89
  let ret := E.avcodec_send_packet st.trace (some packet)
  let st := st.log (.avcodec_send_packet (some packet) ret)
  if ret < 0 then (ret, st) else
  -- line 95
  let frame_ok := E.av_frame_alloc st.trace
  let st := st.log (.av_frame_alloc frame_ok)
  if !frame_ok then (AVERROR ENOMEM, st) else
  -- line 103
  let r := E.avcodec_receive_frame st.trace
  let ret := r.1
  let frame := r.2
  let st := st.log (.avcodec_receive_frame ret)
  if ret = AVERROR EAGAIN then (0, st.log .av_frame_free)
  else if ret = AVERROR_EOF then (0, st.log .av_frame_free)
  else if ret < 0 then (ret, st.log .av_frame_free)
  else
  -- lines 118-163
  decode_write_frame E using_hw_decoder frame st

/-! ## `main` (lines 166-335) -/

/-- Lines 205-211: the index of the first stream of type video among the
streams from index `i` on, or `-1` (the initial value of `video_stream_index`). -/
def find_video_stream : List AVStream → Nat → Int
  | [], _ => -1
  | s :: rest, i =>
    if s.codec_type = AVMEDIA_TYPE_VIDEO then (i : Int)
    else find_video_stream rest (i + 1)

/-- Which of the resources that the cleanup block releases are held
(the pointer is not `NULL`). -/
structure Locals where
  output_file : Bool
  packet : Bool
  decoder_ctx : Bool
  hw_device_ctx : Bool
  input_ctx : Bool
deriving DecidableEq, Repr

/-- Lines 326-334: the cleanup block.  `fclose` is called only when
`output_file` is set; the other four calls are made always, on a pointer that
is held or `NULL`. -/
def cleanup (l : Locals) (ret : Int) (st : State) : Int × State :=
  let st := if l.output_file then st.log .fclose else st
  let st := st.log (.av_packet_free l.packet)
  let st := st.log (.avcodec_free_context l.decoder_ctx)
  let st := st.log (.av_buffer_unref l.hw_device_ctx)
  let st := st.log (.avformat_close_input l.input_ctx)
  (ret, st)

/-- Lines 286-308: the packet loop `while (1)`.  The result is the value of
`ret` when the loop is left (`none`: the fuel ran out first), the content of
`packet` and the state. -/
def packet_loop (E : Env) (decoder_ctx : AVCodecContext) (video_stream_index : Int) :
    Nat → AVPacket → State → Option Int × AVPacket × State
  | 0, packet, st => (none, packet, st)
  | fuel + 1, _, st =>
    -- line 287
    let r := E.av_read_frame st.trace
    let ret := r.1
    let packet := r.2
    let st := st.log (.av_read_frame ret packet.stream_index)
    if ret < 0 then (some ret, packet, st)
    else if packet.stream_index = video_stream_index then
      -- line 297
      let d := decode_write E decoder_ctx packet st
      if d.1 < 0 then (some d.1, packet, d.2)
      else packet_loop E decoder_ctx video_stream_index fuel AVPacket.blank
        (d.2.log .av_packet_unref)
    else packet_loop E decoder_ctx video_stream_index fuel AVPacket.blank
      (st.log .av_packet_unref)

/-- Lines 315-323: the loop `while (ret >= 0)` of the flush, entered with
`ret >= 0`.  The result is the value of `ret` when the loop is left
(`none`: the fuel ran out first). -/
def flush_loop (E : Env) (decoder_ctx : AVCodecContext) (packet : AVPacket) :
    Nat → State → Option Int × State
  | 0, st => (none, st)
  | fuel + 1, st =>
    let d := decode_write E decoder_ctx packet st
    if d.1 = AVERROR EAGAIN ∨ d.1 = AVERROR_EOF then (some d.1, d.2)
    else if d.1 < 0 then (some d.1, d.2)
    else flush_loop E decoder_ctx packet fuel d.2

/-- Lines 312-324: the flush: the `NULL` packet is sent and, when that
succeeds, the flush loop runs. -/
def flush (E : Env) (decoder_ctx : AVCodecContext) (packet : AVPacket) (fuel : Nat)
    (st : State) : Option Int × State :=
  let ret := E.avcodec_send_packet st.trace none
  let st := st.log (.avcodec_send_packet none ret)
  if 0 ≤ ret then flush_loop E decoder_ctx packet fuel st
  else (some ret, st)

/-- Lines 286-324: the packet loop followed by the flush.  Whatever value the
packet loop leaves in `ret`, the flush follows and assigns `ret` anew. -/
def decode_phase (E : Env) (decoder_ctx : AVCodecContext) (video_stream_index : Int)
    (fuel : Nat) (st : State) : Option Int × State :=
  match packet_loop E decoder_ctx video_stream_index fuel AVPacket.blank st with
  | (none, _, st) => (none, st)
  | (some _, packet, st) => flush E decoder_ctx packet fuel st

/-- Lines 261-334: from `avcodec_open2` to the return of `main`. -/
def main_open_decode (E : Env) (argv : List String) (decoder_ctx : AVCodecContext)
    (video_stream_index : Int) (l : Locals) (fuel : Nat) (st : State) : Option Int × State :=
  -- line 262
  let ret := E.avcodec_open2 st.trace
  let st := st.log (.avcodec_open2 ret)
  if ret < 0 then ((cleanup l ret st).map some id) else
  -- line 268
  let err := E.fopen st.trace (argv.getD 2 "")
  let st := st.log (.fopen (argv.getD 2 "") err)
  match err with
  | some errno => (cleanup l (-(errno : Int)) st).map some id
  | none =>
  let l := { l with output_file := true }
  -- line 277
  let ok := E.av_packet_alloc st.trace
  let st := st.log (.av_packet_alloc ok)
  if !ok then (cleanup l (AVERROR ENOMEM) st).map some id else
  let l := { l with packet := true }
  -- lines 286-324
  match decode_phase E decoder_ctx video_stream_index fuel st with
  | (none, st) => (none, st)
  | (some ret, st) => (cleanup l ret st).map some id

/-- The function `main`.  The result is the status it returns (`none`: one of
its loops did not end within `fuel` iterations) and the final state. -/
def main (E : Env) (argc : Int) (argv : List String) (fuel : Nat) : Option Int × State :=
  let st := State.start
  -- line 177
  if argc < 3 then (some (-1), st) else
  -- line 186
  let r := init_decoder E st
  let st := r.2
  match r.1 with
  | none => (some (-1), st)
  | some decoder =>
  -- line 193
  let ret := E.avformat_open_input st.trace (argv.getD 1 "")
  let st := st.log (.avformat_open_input (argv.getD 1 "") ret)
  if ret < 0 then (some ret, st) else
  let l : Locals := { output_file := false, packet := false, decoder_ctx := false,
                      hw_device_ctx := false, input_ctx := true }
  -- line 199
  let ret := E.avformat_find_stream_info st.trace
  let st := st.log (.avformat_find_stream_info ret)
  if ret < 0 then (cleanup l ret st).map some id else
  -- lines 205-216
  let video_stream_index := find_video_stream (E.streams st.trace) 0
  if video_stream_index = -1 then (cleanup l ret st).map some id else
  -- line 228
  let ok := E.avcodec_alloc_context3 st.trace
  let st := st.log (.avcodec_alloc_context3 ok)
  if !ok then (cleanup l (AVERROR ENOMEM) st).map some id else
  let decoder_ctx : AVCodecContext := { codec := decoder }
  let l := { l with decoder_ctx := true }
  -- line 236
  let ret := E.avcodec_parameters_to_context st.trace
  let st := st.log (.avcodec_parameters_to_context ret)
  if ret < 0 then (cleanup l ret st).map some id else
  -- line 242
  if decoder.name == "h264_videotoolbox" then
    let ret := E.av_hwdevice_ctx_create st.trace
    let st := st.log (.av_hwdevice_ctx_create ret)
    if ret < 0 then (cleanup l ret st).map some id else
    let l := { l with hw_device_ctx := true }
    -- line 254
    let st := st.log (.av_buffer_ref (E.av_buffer_ref st.trace))
    -- line 255
    let st := { st with hw_pix_fmt := E.AV_PIX_FMT_VIDEOTOOLBOX }
    main_open_decode E argv decoder_ctx video_stream_index l fuel st
  else
    main_open_decode E argv decoder_ctx video_stream_index l fuel st

/-! ## Observations on a history and on one call of `decode_write` -/

/-- The bytes handed to `fwrite` in a history, in call order. -/
def written_bytes (tr : List Event) : List Byte :=
  tr.flatMap (fun e => match e with
    | .fwrite buf _ => buf
    | _ => [])

/-- How often the plane-writing section (the Frame Writer) was entered. -/
def frames_written (tr : List Event) : Nat := tr.count .yuv_write_begin

/-- Whether an event is a call of `avcodec_receive_frame`. -/
def is_receive : Event → Bool
  | .avcodec_receive_frame _ => true
  | _ => false

/-- Whether an event is a call of `avcodec_send_packet`. -/
def is_send : Event → Bool
  | .avcodec_send_packet _ _ => true
  | _ => false

/-- Whether an event is a call of `av_read_frame`. -/
def is_read : Event → Bool
  | .av_read_frame _ _ => true
  | _ => false

/-- Whether an event is a call of `fwrite`. -/
def is_fwrite : Event → Bool
  | .fwrite _ _ => true
  | _ => false

/-- Whether an event is a call of `fwrite` that took fewer bytes than requested. -/
def is_short_write : Event → Bool
  | .fwrite buf k => decide (k < buf.length)
  | _ => false

/-- Whether an event is a call of `av_hwframe_transfer_data`. -/
def is_transfer : Event → Bool
  | .av_hwframe_transfer_data _ => true
  | _ => false

/-- The events that `decode_write` can produce: the backend calls, the frame
allocation and release, the writer marker and the row writes. -/
def is_decode_event : Event → Bool
  | .avcodec_send_packet _ _ => true
  | .av_frame_alloc _ => true
  | .avcodec_receive_frame _ => true
  | .av_hwframe_transfer_data _ => true
  | .av_frame_free => true
  | .yuv_write_begin => true
  | .fwrite _ _ => true
  | _ => false

/-- The events of the decode phase of `main` (packet loop and flush): those of
`decode_write`, `av_read_frame` and `av_packet_unref`. -/
def is_phase_event : Event → Bool
  | .av_read_frame _ _ => true
  | .av_packet_unref => true
  | e => is_decode_event e

/-- An acquisition or release of one of the resources that `main` owns, as it
shows in the history: a successful acquisition, the release of a held resource,
or a failed `fopen` with its errno. -/
inductive ResOp where
  | open_input
  | close_input
  | alloc_ctx
  | free_ctx
  | hw_create
  | hw_unref
  | packet_alloc
  | packet_free
  | file_open
  | file_close
  | fopen_failed (errno : Nat)
deriving DecidableEq, Repr

/-- The resource operation that an event stands for, if any.  A failed
acquisition and a release call on a `NULL` pointer are none. -/
def res_op : Event → Option ResOp
  | .avformat_open_input _ ret => if 0 ≤ ret then some .open_input else none
  | .avformat_close_input held => if held then some .close_input else none
  | .avcodec_alloc_context3 ok => if ok then some .alloc_ctx else none
  | .avcodec_free_context held => if held then some .free_ctx else none
  | .av_hwdevice_ctx_create ret => if 0 ≤ ret then some .hw_create else none
  | .av_buffer_unref held => if held then some .hw_unref else none
  | .av_packet_alloc ok => if ok then some .packet_alloc else none
  | .av_packet_free held => if held then some .packet_free else none
  | .fopen _ none => some .file_open
  | .fopen _ (some errno) => some (.fopen_failed errno)
  | .fclose => some .file_close
  | _ => none

/-- The resource operations of a history, in order. -/
def res_ops (tr : List Event) : List ResOp := tr.filterMap res_op

/-- The releases that the cleanup block performs on held resources
(lines 327-332), in order. -/
def cleanup_ops (l : Locals) : List ResOp :=
  (if l.output_file then [ResOp.file_close] else [])
  ++ (if l.packet then [ResOp.packet_free] else [])
  ++ (if l.decoder_ctx then [ResOp.free_ctx] else [])
  ++ (if l.hw_device_ctx then [ResOp.hw_unref] else [])
  ++ (if l.input_ctx then [ResOp.close_input] else [])

/-- Every resource acquired in a history was released exactly once: the input
container was closed once, and for the decoder context, the hardware device
context references, the packet and the output file the releases of a held
resource are as many as the acquisitions (at most one each; two for the
hardware references, the probe of `init_decoder` included). -/
def released_once (tr : List Event) : Prop :=
  (res_ops tr).count .close_input = 1
  ∧ (res_ops tr).count .free_ctx = (res_ops tr).count .alloc_ctx
  ∧ (res_ops tr).count .alloc_ctx ≤ 1
  ∧ (res_ops tr).count .hw_unref = (res_ops tr).count .hw_create
  ∧ (res_ops tr).count .hw_create ≤ 2
  ∧ (res_ops tr).count .packet_free = (res_ops tr).count .packet_alloc
  ∧ (res_ops tr).count .packet_alloc ≤ 1
  ∧ (res_ops tr).count .file_close = (res_ops tr).count .file_open
  ∧ (res_ops tr).count .file_open ≤ 1

instance (tr : List Event) : Decidable (released_once tr) := by
  unfold released_once
  infer_instance

/-- The result of the `avcodec_send_packet` call of `decode_write` (line 89). -/
def send_result (E : Env) (packet : AVPacket) (st : State) : Int :=
  E.avcodec_send_packet st.trace (some packet)

/-- The state after the `avcodec_send_packet` call of `decode_write`. -/
def state_after_send (E : Env) (packet : AVPacket) (st : State) : State :=
  st.log (.avcodec_send_packet (some packet) (send_result E packet st))

/-- Whether the `av_frame_alloc` call of line 95 returns a frame. -/
def frame_alloc_result (E : Env) (packet : AVPacket) (st : State) : Bool :=
  E.av_frame_alloc (state_after_send E packet st).trace

/-- The state in which `decode_write` calls `avcodec_receive_frame` (line 103),
after a successful send and a successful frame allocation. -/
def state_at_receive (E : Env) (packet : AVPacket) (st : State) : State :=
  (state_after_send E packet st).log (.av_frame_alloc true)

/-- The result of the `avcodec_receive_frame` call of line 103. -/
def receive_result (E : Env) (packet : AVPacket) (st : State) : Int × AVFrame :=
  E.avcodec_receive_frame (state_at_receive E packet st).trace

/-- The call gets a frame from the backend: the send succeeds, the frame is
allocated and `avcodec_receive_frame` returns a non-negative code. -/
def frame_received (E : Env) (packet : AVPacket) (st : State) : Prop :=
  0 ≤ send_result E packet st ∧ frame_alloc_result E packet st = true ∧
    0 ≤ (receive_result E packet st).1

instance (E : Env) (packet : AVPacket) (st : State) : Decidable (frame_received E packet st) := by
  unfold frame_received
  infer_instance

/-- The state after the `avcodec_receive_frame` call of line 103. -/
def state_after_receive (E : Env) (packet : AVPacket) (st : State) : State :=
  (state_at_receive E packet st).log (.avcodec_receive_frame (receive_result E packet st).1)

/-- Whether the `av_frame_alloc` call of line 124 (the host frame) returns a frame. -/
def sw_alloc_result (E : Env) (packet : AVPacket) (st : State) : Bool :=
  E.av_frame_alloc (state_after_receive E packet st).trace

/-- The state in which `decode_write` calls `av_hwframe_transfer_data` (line 132). -/
def state_at_transfer (E : Env) (packet : AVPacket) (st : State) : State :=
  (state_after_receive E packet st).log (.av_frame_alloc true)

/-- The result of the `av_hwframe_transfer_data` call of line 132: the code and
the host frame it fills. -/
def transfer_result (E : Env) (packet : AVPacket) (st : State) : Int × AVFrame :=
  E.av_hwframe_transfer_data (state_at_transfer E packet st).trace
    (receive_result E packet st).2

/-- No row offset that the three plane loops compute for the frame overflows a
32-bit `int`: `i * linesize[0]` for the `height` rows of plane 0 and
`i * linesize[1]`, `i * linesize[2]` for the `height/2` rows of planes 1 and 2. -/
def frame_rows_fit (f : AVFrame) : Prop :=
  rows_fit f.height.toNat (f.linesize 0)
  ∧ rows_fit (f.height.toNat / 2) (f.linesize 1)
  ∧ rows_fit (f.height.toNat / 2) (f.linesize 2)

instance (f : AVFrame) : Decidable (frame_rows_fit f) := by
  unfold frame_rows_fit
  infer_instance

/-- One pass through the body of the packet loop (lines 287-307) that goes on to
the next pass: the state at the head of the next pass.  `none` when the loop
is left in this pass (the read fails, or `decode_write` returns a negative
code). -/
def packet_loop_step (E : Env) (decoder_ctx : AVCodecContext) (video_stream_index : Int)
    (st : State) : Option State :=
  let r := E.av_read_frame st.trace
  let st1 := st.log (.av_read_frame r.1 r.2.stream_index)
  if r.1 < 0 then none
  else if r.2.stream_index = video_stream_index then
    let d := decode_write E decoder_ctx r.2 st1
    if d.1 < 0 then none else some (d.2.log .av_packet_unref)
  else some (st1.log .av_packet_unref)

/-- The state at the head of the packet loop after `k` full passes, started in
`st`; `none` if the loop is left before. -/
def packet_loop_head (E : Env) (decoder_ctx : AVCodecContext) (video_stream_index : Int) :
    Nat → State → Option State
  | 0, st => some st
  | k + 1, st =>
    match packet_loop_step E decoder_ctx video_stream_index st with
    | none => none
    | some st1 => packet_loop_head E decoder_ctx video_stream_index k st1

/-- The events that a later history `tr2` has after the earlier history `tr1`. -/
def new_events (tr1 tr2 : List Event) : List Event := tr2.drop tr1.length

/-! ## The specification's own words, for comparison with the code -/

/-- The bytes the Frame Writer contract lists for a frame of width `w` and
height `h`: for `i = 0..h-1` the `w` bytes of plane 0 at offset `i*linesize[0]`,
then for `i = 0..h/2-1` the `w/2` bytes of plane 1 at offset `i*linesize[1]`,
then the same for plane 2. -/
def spec_frame_bytes (f : AVFrame) : List Byte :=
  (List.range f.height.toNat).flatMap
      (fun (i : Nat) => read_bytes (f.data 0) ((i : Int) * f.linesize 0) f.width.toNat)
  ++ (List.range (f.height.toNat / 2)).flatMap
      (fun (i : Nat) => read_bytes (f.data 1) ((i : Int) * f.linesize 1) (f.width.toNat / 2))
  ++ (List.range (f.height.toNat / 2)).flatMap
      (fun (i : Nat) => read_bytes (f.data 2) ((i : Int) * f.linesize 2) (f.width.toNat / 2))

/-- The receive loop in the words of the specification (section 4.4): receive
repeatedly; "needs more input" and "end of stream" end the loop without error,
any other negative code aborts with that code; a received frame of the hardware
format is transferred to a host frame first (a failed transfer aborts), and the
resulting frame is written. -/
def spec_receive_loop (E : Env) (using_hw_decoder : Bool) : Nat → State → Option Int × State
  | 0, st => (none, st)
  | fuel + 1, st =>
    let r := E.avcodec_receive_frame st.trace
    let st := st.log (.avcodec_receive_frame r.1)
    if r.1 = AVERROR EAGAIN ∨ r.1 = AVERROR_EOF then (some 0, st)
    else if r.1 < 0 then (some r.1, st)
    else if using_hw_decoder && decide (r.2.format = st.hw_pix_fmt) then
      let t := E.av_hwframe_transfer_data st.trace r.2
      let st := st.log (.av_hwframe_transfer_data t.1)
      if t.1 < 0 then (some t.1, st)
      else spec_receive_loop E using_hw_decoder fuel (write_yuv E t.2 st)
    else spec_receive_loop E using_hw_decoder fuel (write_yuv E r.2 st)

/-- The per-packet step in the words of the specification (section 4.4): send
the packet, then run the receive loop. -/
def spec_decode_write (E : Env) (avctx : AVCodecContext) (packet : AVPacket) (fuel : Nat)
    (st : State) : Option Int × State :=
  let ret := E.avcodec_send_packet st.trace (some packet)
  let st := st.log (.avcodec_send_packet (some packet) ret)
  if ret < 0 then (some ret, st)
  else spec_receive_loop E (avctx.codec.name == "h264_videotoolbox") fuel st

/-! ## Concrete environments and inputs -/

/-- A 2x2 frame of the given pixel format: plane 0 has stride 3 (one byte of
padding per row), planes 1 and 2 have stride 2; the byte at offset `off` of
plane `k` is `10 * (k + 1) + off`. -/
def sample_frame (format : Int) : AVFrame :=
  { width := 2, height := 2, format := format,
    linesize := fun k => if k = 0 then 3 else 2,
    data := fun k off => Fin.ofNat (10 * (k + 1) + off.toNat) }

/-- The host frame that the sample hardware transfer produces: same geometry,
the byte at offset `off` of plane `k` is `100 + 10 * k + off`. -/
def sample_host_frame : AVFrame :=
  { width := 2, height := 2, format := 0,
    linesize := fun k => if k = 0 then 3 else 2,
    data := fun k off => Fin.ofNat (100 + 10 * k + off.toNat) }

/-- A video packet of stream 1. -/
def sample_packet : AVPacket := { stream_index := 1, data := [7] }

/-- A well-behaved software-only environment: no hardware decoder is
registered, the container has an audio stream 0 and a video stream 1 and holds
one video packet, every call succeeds, the backend yields one frame per packet
sent and, once the `NULL` packet was sent, reports end of stream to every
further send and receive. -/
def Env.sample : Env :=
  { AV_PIX_FMT_VIDEOTOOLBOX := 160
    avcodec_find_decoder_by_name := fun _ => none
    avcodec_find_decoder := fun id => if id = AV_CODEC_ID_H264 then some { name := "h264" } else none
    av_hwdevice_ctx_create := fun _ => 0
    av_buffer_ref := fun _ => true
    avformat_open_input := fun _ _ => 0
    avformat_find_stream_info := fun _ => 0
    streams := fun _ => [{ codec_type := 1 }, { codec_type := 0 }]
    avcodec_alloc_context3 := fun _ => true
    avcodec_parameters_to_context := fun _ => 0
    avcodec_open2 := fun _ => 0
    fopen := fun _ _ => none
    av_packet_alloc := fun _ => true
    av_read_frame := fun tr =>
      if tr.countP is_read < 1 then (0, sample_packet) else (AVERROR_EOF, AVPacket.blank)
    avcodec_send_packet := fun tr _ =>
      if tr.any (fun e => e == Event.avcodec_send_packet none 0) then AVERROR_EOF else 0
    av_frame_alloc := fun _ => true
    avcodec_receive_frame := fun tr =>
      if tr.any (fun e => e == Event.avcodec_send_packet none 0) then (AVERROR_EOF, sample_frame 0)
      else if tr.countP is_receive < tr.countP is_send then (0, sample_frame 0)
      else (AVERROR EAGAIN, sample_frame 0)
    av_hwframe_transfer_data := fun _ _ => (0, sample_host_frame)
    fwrite_accepts := fun _ buf => buf.length }

/-- The sample environment with a hardware decoder registered and usable. -/
def Env.sample_hw : Env :=
  { Env.sample with
    avcodec_find_decoder_by_name := fun name =>
      if name = "h264_videotoolbox" then some { name := "h264_videotoolbox" } else none
    avcodec_receive_frame := fun tr =>
      if tr.countP is_receive < tr.countP is_send then (0, sample_frame 160)
      else (AVERROR EAGAIN, sample_frame 160) }

/-- The sample environment with a backend that has two frames ready after the
first packet: the first two receives yield a frame, later ones report "needs
more input". -/
def Env.two_frames : Env :=
  { Env.sample with
    avcodec_receive_frame := fun tr =>
      if tr.countP is_receive < 2 then (0, sample_frame 0)
      else (AVERROR EAGAIN, sample_frame 0) }

/-- The sample environment with an output stream that accepts no byte (every
`fwrite` returns 0). -/
def Env.disk_full : Env :=
  { Env.sample with fwrite_accepts := fun _ _ => 0 }

/-- The sample environment with a backend that fails to decode: every receive
outside the flush returns the error code `-1094995529` ("invalid data"). -/
def Env.decode_error : Env :=
  { Env.sample with
    avcodec_receive_frame := fun _ => (-1094995529, sample_frame 0) }

/-- The sample environment with two video packets and a backend that decodes
the first and fails on the second: the first receive yields a frame, every
later one returns `-1094995529`. -/
def Env.late_decode_error : Env :=
  { Env.sample with
    av_read_frame := fun tr =>
      if tr.countP is_read < 2 then (0, sample_packet) else (AVERROR_EOF, AVPacket.blank)
    avcodec_receive_frame := fun tr =>
      if tr.countP is_receive < 1 then (0, sample_frame 0)
      else (-1094995529, sample_frame 0) }

/-- The sample environment with an output path that cannot be opened
(`fopen` fails with errno 13). -/
def Env.unwritable : Env :=
  { Env.sample with fopen := fun _ _ => some 13 }

/-- The sample environment with a container that has only an audio stream. -/
def Env.audio_only : Env :=
  { Env.sample with streams := fun _ => [{ codec_type := 1 }] }

/-- The software decoder context of the sample environment. -/
def sample_ctx : AVCodecContext := { codec := { name := "h264" } }

/-- The hardware decoder context. -/
def sample_hw_ctx : AVCodecContext := { codec := { name := "h264_videotoolbox" } }

/-- The command line `prog in.h264 out.yuv`. -/
def sample_argv : List String := ["prog", "in.h264", "out.yuv"]

/-! # Theorems -/

/-! ## The plane loops -/

theorem log_trace (st : State) (e : Event) : (st.log e).trace = st.trace ++ [e] := rfl

theorem written_bytes_append (a b : List Event) :
    written_bytes (a ++ b) = written_bytes a ++ written_bytes b := by
  simp [written_bytes]

theorem range_succ_flatMap {β : Type} (n : Nat) (f : Nat → List β) :
    (List.range (n + 1)).flatMap f = f 0 ++ (List.range n).flatMap (fun k => f (k + 1)) := by
  rw [List.range_succ_eq_map]
  simp [List.flatMap_cons, List.flatMap_map, Function.comp]

theorem write_plane_hw (E : Env) (data : Int → Byte) (ls : Int) (cnt : Nat) :
    ∀ (n : Nat) (i : Int) (st : State),
      (write_plane E data ls cnt n i st).hw_pix_fmt = st.hw_pix_fmt := by
  intro n
  induction n with
  | zero => intro i st; rfl
  | succ n ih => intro i st; simp [write_plane, ih, fwrite]

theorem write_plane_written (E : Env) (data : Int → Byte) (ls : Int) (cnt : Nat) :
    ∀ (n : Nat) (i : Int) (st : State),
      written_bytes (write_plane E data ls cnt n i st).trace =
        written_bytes st.trace ++
          (List.range n).flatMap
            (fun k => read_bytes data (wrap_int32 ((i + (k : Int)) * ls)) cnt) := by
  intro n
  induction n with
  | zero => intro i st; simp [write_plane]
  | succ n ih =>
    intro i st
    rw [write_plane, ih, range_succ_flatMap]
    simp only [fwrite, written_bytes_append]
    have hk : ∀ k : Nat, i + 1 + (k : Int) = i + ((k + 1 : Nat) : Int) := by
      intro k; push_cast; ring
    simp [written_bytes, hk, List.append_assoc]

theorem toNat_tdiv_two (w : Int) (hw : 0 ≤ w) : (w.tdiv 2).toNat = w.toNat / 2 := by
  rw [Int.tdiv_eq_ediv hw (by decide)]
  omega

theorem wrap_int32_of_fits (x : Int) (h : fits_int32 x) : wrap_int32 x = x := by
  unfold fits_int32 at h
  unfold wrap_int32
  rw [Int.emod_eq_of_lt (by omega) (by omega)]
  omega

theorem rows_unwrap (data : Int → Byte) (ls : Int) (cnt : Nat) :
    ∀ (n : Nat), rows_fit n ls →
      (List.range n).flatMap (fun k => read_bytes data (wrap_int32 ((0 + (k : Int)) * ls)) cnt)
        = (List.range n).flatMap (fun (k : Nat) => read_bytes data ((k : Int) * ls) cnt) := by
  intro n
  induction n with
  | zero => intro _; rfl
  | succ n ih =>
    intro h
    have hn : rows_fit n ls := fun i hi => h i (Nat.lt_succ_of_lt hi)
    have hlast := wrap_int32_of_fits _ (h n (Nat.lt_succ_self n))
    rw [List.range_succ, List.flatMap_append, List.flatMap_append, ih hn]
    simp only [List.flatMap_cons, List.flatMap_nil, List.append_nil, zero_add, hlast]

theorem write_yuv_written (E : Env) (f : AVFrame) (st : State)
    (hw : 0 ≤ f.width) (hh : 0 ≤ f.height) (hfit : frame_rows_fit f) :
    written_bytes (write_yuv E f st).trace = written_bytes st.trace ++ spec_frame_bytes f := by
  obtain ⟨h0, h1, h2⟩ := hfit
  simp only [write_yuv, write_plane_written, toNat_tdiv_two _ hw, toNat_tdiv_two _ hh,
    spec_frame_bytes, State.log, written_bytes_append, rows_unwrap _ _ _ _ h0,
    rows_unwrap _ _ _ _ h1, rows_unwrap _ _ _ _ h2]
  simp [written_bytes, List.append_assoc]

theorem get_hw_format_scan (hw : Int) : ∀ (arr : List Int), (-1 : Int) ∈ arr →
    get_hw_format hw arr =
      some (if hw ∈ arr.takeWhile (fun p => decide (p ≠ -1)) then hw else AV_PIX_FMT_NONE) := by
  intro arr
  induction arr with
  | nil => intro h; simp at h
  | cons p rest ih =>
    intro h
    by_cases hp : p = -1
    · subst hp
      simp [get_hw_format]
    · have hrest : (-1 : Int) ∈ rest := by
        rcases List.mem_cons.1 h with h1 | h1
        · exact absurd h1.symm hp
        · exact h1
      by_cases hq : p = hw
      · subst hq
        simp [get_hw_format, hp, List.takeWhile]
      · have hq2 : ¬ hw = p := fun h => hq h.symm
        simp [get_hw_format, hp, hq, List.takeWhile, ih hrest, hq2]

/-- C4: for every candidate array that contains the terminator `-1` and every
value of `hw_pix_fmt`, `get_hw_format` returns `hw_pix_fmt` when it occurs among
the cells before the first terminator and `AV_PIX_FMT_NONE` otherwise; so the
result is always `hw_pix_fmt` or `AV_PIX_FMT_NONE`. -/
theorem C4_get_hw_format (hw_pix_fmt : Int) (pix_fmts : List Int) (hterm : (-1 : Int) ∈ pix_fmts) :
    get_hw_format hw_pix_fmt pix_fmts =
      some (if hw_pix_fmt ∈ pix_fmts.takeWhile (fun p => decide (p ≠ -1)) then hw_pix_fmt
            else AV_PIX_FMT_NONE)
    ∧ (get_hw_format hw_pix_fmt pix_fmts = some hw_pix_fmt
        ∨ get_hw_format hw_pix_fmt pix_fmts = some AV_PIX_FMT_NONE) := by
  have h := get_hw_format_scan hw_pix_fmt pix_fmts hterm
  refine ⟨h, ?_⟩
  rw [h]
  split_ifs
  · exact Or.inl rfl
  · exact Or.inr rfl

/-- C4 at two concrete arrays: the format is found before the terminator, or
occurs only after it. -/
theorem C4_get_hw_format_witness :
    get_hw_format 160 [0, 23, 160, -1, 5] = some 160
    ∧ get_hw_format 160 [0, 23, -1, 160] = some AV_PIX_FMT_NONE := by
  refine ⟨?_, ?_⟩
  · have h := (C4_get_hw_format 160 [0, 23, 160, -1, 5] (by decide)).1
    rw [h]; decide
  · have h := (C4_get_hw_format 160 [0, 23, -1, 160] (by decide)).1
    rw [h]; decide

/-- C5: `init_decoder` returns the decoder found by the name
`h264_videotoolbox` when that lookup succeeds and the probe
`av_hwdevice_ctx_create` returns a non-negative code (the hardware path is
selected); in every other case it returns what `avcodec_find_decoder` gives for
H.264, the software decoder when one exists; it returns `NULL` exactly when
the hardware path is not selected and no software decoder exists; and, when the
software lookup does not give the hardware decoder itself, it returns the
hardware decoder if and only if the hardware path is selected. -/
theorem C5_init_decoder (E : Env) (st : State) :
    let hw := E.avcodec_find_decoder_by_name "h264_videotoolbox"
    let probe := E.av_hwdevice_ctx_create
      (st.trace ++ [Event.avcodec_find_decoder_by_name "h264_videotoolbox" true])
    let sw := E.avcodec_find_decoder AV_CODEC_ID_H264
    let selected := hw.isSome = true ∧ 0 ≤ probe
    (selected → (init_decoder E st).1 = hw)
    ∧ (¬ selected → (init_decoder E st).1 = sw)
    ∧ ((init_decoder E st).1 = none ↔ ¬ selected ∧ sw = none)
    ∧ ((hw.isSome = true → sw ≠ hw) →
        (((init_decoder E st).1 = hw ∧ hw.isSome = true) ↔ selected)) := by
  intro hw probe sw selected
  cases hhw : E.avcodec_find_decoder_by_name "h264_videotoolbox" with
  | none =>
    have hsel : ¬ selected := by simp [selected, hw, hhw]
    have hres : (init_decoder E st).1 = sw := by
      simp [init_decoder, init_decoder_fallback, hhw, sw]
    refine ⟨fun h => absurd h hsel, fun _ => hres, ?_, ?_⟩
    · rw [hres]; simp [hsel]
    · intro _; simp [hsel, hw, hhw]
  | some d =>
    by_cases hp : 0 ≤ probe
    · have hsel : selected := by simp [selected, hw, hhw, hp]
      have hres : (init_decoder E st).1 = hw := by
        have hp2 : 0 ≤ E.av_hwdevice_ctx_create
            (st.trace ++ [Event.avcodec_find_decoder_by_name "h264_videotoolbox" true]) := hp
        simp [init_decoder, hhw, hw, State.log, hp2]
      refine ⟨fun _ => hres, fun h => absurd hsel h, ?_, ?_⟩
      · rw [hres]
        constructor
        · intro h; simp [hw, hhw] at h
        · intro h; exact absurd hsel h.1
      · intro _
        exact ⟨fun _ => hsel, fun _ => ⟨hres, by simp [hw, hhw]⟩⟩
    · have hsel : ¬ selected := by simp [selected, hp]
      have hres : (init_decoder E st).1 = sw := by
        have hp2 : ¬ 0 ≤ E.av_hwdevice_ctx_create
            (st.trace ++ [Event.avcodec_find_decoder_by_name "h264_videotoolbox" true]) := hp
        simp [init_decoder, init_decoder_fallback, hhw, sw, State.log, hp2]
      refine ⟨fun h => absurd h hsel, fun _ => hres, ?_, ?_⟩
      · rw [hres]; simp [hsel]
      · intro hne
        have : ¬ (sw = hw) := hne (by simp [hw, hhw])
        simp [hres, hsel, this]

/-- C5 at two concrete registries: the hardware decoder is registered and the
probe succeeds; no hardware decoder is registered. -/
theorem C5_init_decoder_witness :
    (init_decoder Env.sample_hw State.start).1 = some { name := "h264_videotoolbox" }
    ∧ (init_decoder Env.sample State.start).1 = some { name := "h264" } := by
  have h1 := (C5_init_decoder Env.sample_hw State.start).1 (by decide)
  have h2 := (C5_init_decoder Env.sample State.start).2.1 (by decide)
  exact ⟨by rw [h1]; decide, by rw [h2]; decide⟩

/-! ## The branches of `decode_write` -/

theorem AVERROR_ENOMEM_neg : AVERROR ENOMEM < 0 := by decide

theorem decode_write_unfold (E : Env) (avctx : AVCodecContext) (packet : AVPacket)
    (st : State) :
    decode_write E avctx packet st =
      if send_result E packet st < 0 then
        (send_result E packet st, state_after_send E packet st)
      else if frame_alloc_result E packet st = false then
        (AVERROR ENOMEM, (state_after_send E packet st).log (.av_frame_alloc false))
      else if (receive_result E packet st).1 = AVERROR EAGAIN
          ∨ (receive_result E packet st).1 = AVERROR_EOF then
        (0, (state_after_receive E packet st).log .av_frame_free)
      else if (receive_result E packet st).1 < 0 then
        ((receive_result E packet st).1, (state_after_receive E packet st).log .av_frame_free)
      else
        decode_write_frame E (avctx.codec.name == "h264_videotoolbox")
          (receive_result E packet st).2 (state_after_receive E packet st) := by
  by_cases hs : send_result E packet st < 0
  · have hs2 := hs
    unfold send_result at hs2
    simp [decode_write, hs, hs2, state_after_send, send_result]
  · have hs2 := hs
    unfold send_result at hs2
    cases ha : frame_alloc_result E packet st with
    | false =>
      have ha2 := ha
      unfold frame_alloc_result state_after_send send_result at ha2
      simp [decode_write, hs, hs2, ha, ha2, state_after_send, send_result]
    | true =>
      have ha2 := ha
      unfold frame_alloc_result state_after_send send_result at ha2
      simp only [decode_write, hs, hs2, ha, ha2, state_after_send, send_result,
        state_after_receive, state_at_receive, receive_result, if_false, Bool.not_true,
        Bool.false_eq_true, Bool.true_eq_false]
      split_ifs <;> simp_all

theorem decode_write_alloc_fail (E : Env) (avctx : AVCodecContext) (packet : AVPacket)
    (st : State) (hs : 0 ≤ send_result E packet st)
    (ha : frame_alloc_result E packet st = false) :
    decode_write E avctx packet st =
      (AVERROR ENOMEM, (state_after_send E packet st).log (.av_frame_alloc false)) := by
  rw [decode_write_unfold, if_neg (not_lt.2 hs), if_pos ha]

theorem decode_write_signal (E : Env) (avctx : AVCodecContext) (packet : AVPacket)
    (st : State) (hs : 0 ≤ send_result E packet st)
    (ha : frame_alloc_result E packet st = true)
    (hr : (receive_result E packet st).1 = AVERROR EAGAIN
      ∨ (receive_result E packet st).1 = AVERROR_EOF) :
    decode_write E avctx packet st =
      (0, (state_after_receive E packet st).log .av_frame_free) := by
  rw [decode_write_unfold, if_neg (not_lt.2 hs), if_neg (by simp [ha]), if_pos hr]

theorem decode_write_received (E : Env) (avctx : AVCodecContext) (packet : AVPacket)
    (st : State) (hrecv : frame_received E packet st) :
    decode_write E avctx packet st =
      decode_write_frame E (avctx.codec.name == "h264_videotoolbox")
        (receive_result E packet st).2 (state_after_receive E packet st) := by
  obtain ⟨hs, ha, hr⟩ := hrecv
  have h1 : ¬ ((receive_result E packet st).1 = AVERROR EAGAIN
      ∨ (receive_result E packet st).1 = AVERROR_EOF) := by
    rintro (h | h)
    · rw [h] at hr; exact absurd hr (by decide)
    · rw [h] at hr; exact absurd hr (by decide)
  rw [decode_write_unfold, if_neg (not_lt.2 hs), if_neg (by simp [ha]), if_neg h1,
    if_neg (not_lt.2 hr)]

theorem state_after_receive_hw (E : Env) (packet : AVPacket) (st : State) :
    (state_after_receive E packet st).hw_pix_fmt = st.hw_pix_fmt := rfl

theorem decode_write_frame_host (E : Env) (using_hw : Bool) (frame : AVFrame) (st : State)
    (hhost : ¬ (using_hw = true ∧ frame.format = st.hw_pix_fmt)) :
    decode_write_frame E using_hw frame st = (0, (write_yuv E frame st).log .av_frame_free) := by
  have hc : ¬ ((using_hw && decide (frame.format = st.hw_pix_fmt)) = true) := by
    simpa using hhost
  simp only [decode_write_frame, hc, Bool.false_eq_true, if_false]

theorem decode_write_frame_hw (E : Env) (frame : AVFrame) (st : State)
    (hfmt : frame.format = st.hw_pix_fmt) :
    decode_write_frame E true frame st =
      if E.av_frame_alloc st.trace = false then
        (AVERROR ENOMEM, (st.log (.av_frame_alloc false)).log .av_frame_free)
      else if (E.av_hwframe_transfer_data (st.log (.av_frame_alloc true)).trace frame).1 < 0 then
        ((E.av_hwframe_transfer_data (st.log (.av_frame_alloc true)).trace frame).1,
          ((((st.log (.av_frame_alloc true)).log (.av_hwframe_transfer_data
            (E.av_hwframe_transfer_data (st.log (.av_frame_alloc true)).trace frame).1)).log
              .av_frame_free).log .av_frame_free))
      else
        (0, ((write_yuv E (E.av_hwframe_transfer_data (st.log (.av_frame_alloc true)).trace frame).2
          ((st.log (.av_frame_alloc true)).log (.av_hwframe_transfer_data
            (E.av_hwframe_transfer_data (st.log (.av_frame_alloc true)).trace frame).1))).log
              .av_frame_free).log .av_frame_free) := by
  cases ha : E.av_frame_alloc st.trace with
  | false => simp [decode_write_frame, hfmt, ha]
  | true => simp [decode_write_frame, hfmt, ha]

theorem decode_write_host (E : Env) (avctx : AVCodecContext) (packet : AVPacket)
    (st : State) (hrecv : frame_received E packet st)
    (hhost : ¬ (avctx.codec.name = "h264_videotoolbox"
      ∧ (receive_result E packet st).2.format = st.hw_pix_fmt)) :
    decode_write E avctx packet st =
      (0, (write_yuv E (receive_result E packet st).2 (state_after_receive E packet st)).log
        .av_frame_free) := by
  rw [decode_write_received E avctx packet st hrecv]
  apply decode_write_frame_host
  simpa [state_after_receive_hw] using hhost

/-! ## C1: the bytes written for a host-resident frame -/

theorem written_bytes_state_after_receive (E : Env) (packet : AVPacket) (st : State) :
    written_bytes (state_after_receive E packet st).trace = written_bytes st.trace := by
  simp [state_after_receive, state_at_receive, state_after_send, State.log, written_bytes]

theorem frames_written_append (a b : List Event) :
    frames_written (a ++ b) = frames_written a + frames_written b := by
  simp [frames_written]

theorem write_plane_ext (E : Env) (data : Int → Byte) (ls : Int) (cnt : Nat) :
    ∀ (n : Nat) (i : Int) (st : State),
      ∃ l, (write_plane E data ls cnt n i st).trace = st.trace ++ l
        ∧ ∀ e ∈ l, is_fwrite e = true := by
  intro n
  induction n with
  | zero => intro i st; exact ⟨[], by simp [write_plane], by simp⟩
  | succ n ih =>
    intro i st
    obtain ⟨l, hl, hall⟩ := ih (i + 1) (fwrite E (read_bytes data (wrap_int32 (i * ls)) cnt) st).2
    refine ⟨Event.fwrite (read_bytes data (wrap_int32 (i * ls)) cnt)
      (min (E.fwrite_accepts st.trace (read_bytes data (wrap_int32 (i * ls)) cnt))
        (read_bytes data (wrap_int32 (i * ls)) cnt).length) :: l, ?_, ?_⟩
    · rw [write_plane, hl]
      simp only [fwrite, List.append_assoc, List.singleton_append]
    · intro e he
      rcases List.mem_cons.1 he with h | h
      · subst h; rfl
      · exact hall e h

theorem write_yuv_ext (E : Env) (f : AVFrame) (st : State) :
    ∃ l, (write_yuv E f st).trace = st.trace ++ Event.yuv_write_begin :: l
      ∧ ∀ e ∈ l, is_fwrite e = true := by
  unfold write_yuv
  obtain ⟨l0, h0, a0⟩ := write_plane_ext E (f.data 0) (f.linesize 0) f.width.toNat
    f.height.toNat 0 (st.log .yuv_write_begin)
  obtain ⟨l1, h1, a1⟩ := write_plane_ext E (f.data 1) (f.linesize 1) (f.width.tdiv 2).toNat
    (f.height.tdiv 2).toNat 0 (write_plane E (f.data 0) (f.linesize 0) f.width.toNat
      f.height.toNat 0 (st.log .yuv_write_begin))
  obtain ⟨l2, h2, a2⟩ := write_plane_ext E (f.data 2) (f.linesize 2) (f.width.tdiv 2).toNat
    (f.height.tdiv 2).toNat 0 (write_plane E (f.data 1) (f.linesize 1) (f.width.tdiv 2).toNat
      (f.height.tdiv 2).toNat 0 (write_plane E (f.data 0) (f.linesize 0) f.width.toNat
        f.height.toNat 0 (st.log .yuv_write_begin)))
  refine ⟨l0 ++ l1 ++ l2, ?_, ?_⟩
  · rw [h2, h1, h0]
    simp [State.log, List.append_assoc]
  · intro e he
    simp only [List.mem_append] at he
    rcases he with (h | h) | h
    · exact a0 e h
    · exact a1 e h
    · exact a2 e h

theorem is_fwrite_decode (e : Event) (h : is_fwrite e = true) : is_decode_event e = true := by
  cases e <;> simp_all [is_fwrite, is_decode_event]

theorem is_fwrite_not_receive (e : Event) (h : is_fwrite e = true) : is_receive e = false := by
  cases e <;> simp_all [is_fwrite, is_receive]

theorem is_fwrite_not_send (e : Event) (h : is_fwrite e = true) : is_send e = false := by
  cases e <;> simp_all [is_fwrite, is_send]

theorem is_fwrite_not_marker (e : Event) (h : is_fwrite e = true) :
    (e == Event.yuv_write_begin) = false := by
  cases e <;> simp_all [is_fwrite]

theorem countP_eq_zero_of_fwrite (p : Event → Bool) (hp : ∀ e, is_fwrite e = true → p e = false)
    (l : List Event) (hl : ∀ e ∈ l, is_fwrite e = true) : l.countP p = 0 := by
  rw [List.countP_eq_zero]
  intro e he
  simp [hp e (hl e he)]

theorem frames_written_fwrites (l : List Event) (hl : ∀ e ∈ l, is_fwrite e = true) :
    frames_written l = 0 := by
  unfold frames_written
  rw [List.count_eq_zero]
  intro hmem
  have := hl _ hmem
  simp [is_fwrite] at this

theorem write_yuv_frames (E : Env) (f : AVFrame) (st : State) :
    frames_written (write_yuv E f st).trace = frames_written st.trace + 1 := by
  obtain ⟨l, hl, hall⟩ := write_yuv_ext E f st
  rw [hl, frames_written_append]
  have h0 := frames_written_fwrites l hall
  unfold frames_written at h0 ⊢
  simp [List.count_cons, h0]

theorem write_yuv_countP (p : Event → Bool) (hp : ∀ e, is_fwrite e = true → p e = false)
    (hm : p Event.yuv_write_begin = false) (E : Env) (f : AVFrame) (st : State) :
    (write_yuv E f st).trace.countP p = st.trace.countP p := by
  obtain ⟨l, hl, hall⟩ := write_yuv_ext E f st
  rw [hl, List.countP_append, List.countP_cons, countP_eq_zero_of_fwrite p hp l hall]
  simp [hm]

theorem write_yuv_hw (E : Env) (f : AVFrame) (st : State) :
    (write_yuv E f st).hw_pix_fmt = st.hw_pix_fmt := by
  simp [write_yuv, write_plane_hw, State.log]

theorem tail_of_fwrites (l : List Event) (hall : ∀ e ∈ l, is_fwrite e = true)
    (pre post : List Event)
    (hpre : ∀ e ∈ pre, is_decode_event e = true) (hpost : ∀ e ∈ post, is_decode_event e = true) :
    (∀ e ∈ pre ++ l ++ post, is_decode_event e = true)
    ∧ (pre ++ l ++ post).countP is_send = pre.countP is_send + post.countP is_send
    ∧ (pre ++ l ++ post).countP is_receive = pre.countP is_receive + post.countP is_receive
    ∧ frames_written (pre ++ l ++ post) = frames_written pre + frames_written post := by
  refine ⟨?_, ?_, ?_, ?_⟩
  · intro e he
    simp only [List.mem_append] at he
    rcases he with (h | h) | h
    · exact hpre e h
    · exact is_fwrite_decode e (hall e h)
    · exact hpost e h
  · simp [List.countP_append, countP_eq_zero_of_fwrite is_send is_fwrite_not_send l hall]
  · simp [List.countP_append, countP_eq_zero_of_fwrite is_receive is_fwrite_not_receive l hall]
  · simp [frames_written_append, frames_written_fwrites l hall]

theorem decode_write_frame_ext (E : Env) (using_hw : Bool) (frame : AVFrame) (st : State) :
    ∃ l, (decode_write_frame E using_hw frame st).2.trace = st.trace ++ l
      ∧ (∀ e ∈ l, is_decode_event e = true)
      ∧ l.countP is_send = 0 ∧ l.countP is_receive = 0 ∧ frames_written l ≤ 1 := by
  simp only [decode_write_frame]
  split_ifs with h1 h2 h3
  · refine ⟨[Event.av_frame_alloc (E.av_frame_alloc st.trace), Event.av_frame_free], ?_, ?_, ?_,
      ?_, ?_⟩
    · simp [State.log]
    · intro e he; simp at he; rcases he with h | h <;> subst h <;> rfl
    · simp [is_send]
    · simp [is_receive]
    · simp [frames_written]
  · refine ⟨[Event.av_frame_alloc (E.av_frame_alloc st.trace),
      Event.av_hwframe_transfer_data
        (E.av_hwframe_transfer_data (st.log (.av_frame_alloc (E.av_frame_alloc st.trace))).trace
          frame).1, Event.av_frame_free, Event.av_frame_free], ?_, ?_, ?_, ?_, ?_⟩
    · simp [State.log]
    · intro e he; simp at he; rcases he with h | h | h <;> subst h <;> rfl
    · simp [is_send]
    · simp [is_receive]
    · simp [frames_written]
  · obtain ⟨l, hl, hall⟩ := write_yuv_ext E
      (E.av_hwframe_transfer_data (st.log (.av_frame_alloc (E.av_frame_alloc st.trace))).trace
        frame).2
      ((st.log (.av_frame_alloc (E.av_frame_alloc st.trace))).log
        (.av_hwframe_transfer_data (E.av_hwframe_transfer_data
          (st.log (.av_frame_alloc (E.av_frame_alloc st.trace))).trace frame).1))
    have ht := tail_of_fwrites l hall
      [Event.av_frame_alloc (E.av_frame_alloc st.trace),
        Event.av_hwframe_transfer_data (E.av_hwframe_transfer_data
          (st.log (.av_frame_alloc (E.av_frame_alloc st.trace))).trace frame).1,
        Event.yuv_write_begin]
      [Event.av_frame_free, Event.av_frame_free]
      (by intro e he; simp at he; rcases he with h | h | h <;> subst h <;> rfl)
      (by intro e he; simp at he; subst he; rfl)
    refine ⟨_, ?_, ht.1, ?_, ?_, ?_⟩
    · show (write_yuv _ _ _).trace ++ [Event.av_frame_free] ++ [Event.av_frame_free] = _
      rw [hl]
      simp [State.log, List.append_assoc]
    · rw [ht.2.1]; simp [is_send]
    · rw [ht.2.2.1]; simp [is_receive]
    · rw [ht.2.2.2]; simp [frames_written]
  · obtain ⟨l, hl, hall⟩ := write_yuv_ext E frame st
    have ht := tail_of_fwrites l hall [Event.yuv_write_begin] [Event.av_frame_free]
      (by intro e he; simp at he; subst he; rfl)
      (by intro e he; simp at he; subst he; rfl)
    refine ⟨_, ?_, ht.1, ?_, ?_, ?_⟩
    · show (write_yuv _ _ _).trace ++ [Event.av_frame_free] = _
      rw [hl]
      simp [List.append_assoc]
    · rw [ht.2.1]; simp [is_send]
    · rw [ht.2.2.1]; simp [is_receive]
    · rw [ht.2.2.2]; simp [frames_written]

theorem decode_write_ext (E : Env) (avctx : AVCodecContext) (packet : AVPacket) (st : State) :
    ∃ l, (decode_write E avctx packet st).2.trace
        = st.trace ++ Event.avcodec_send_packet (some packet) (send_result E packet st) :: l
      ∧ (∀ e ∈ l, is_decode_event e = true)
      ∧ l.countP is_send = 0 ∧ l.countP is_receive ≤ 1 ∧ frames_written l ≤ 1 := by
  rw [decode_write_unfold]
  split_ifs with h1 h2 h3 h4
  · exact ⟨[], by simp [state_after_send, State.log], by simp, by simp, by simp,
      by simp [frames_written]⟩
  · refine ⟨[Event.av_frame_alloc false], by simp [state_after_send, State.log], ?_, ?_, ?_, ?_⟩
    · intro e he; simp at he; subst he; rfl
    · simp [is_send]
    · simp [is_receive]
    · simp [frames_written]
  · refine ⟨[Event.av_frame_alloc true,
      Event.avcodec_receive_frame (receive_result E packet st).1, Event.av_frame_free],
      by simp [state_after_receive, state_at_receive, state_after_send, State.log], ?_, ?_, ?_, ?_⟩
    · intro e he; simp at he; rcases he with h | h | h <;> subst h <;> rfl
    · simp [is_send]
    · simp [is_receive]
    · simp [frames_written]
  · refine ⟨[Event.av_frame_alloc true,
      Event.avcodec_receive_frame (receive_result E packet st).1, Event.av_frame_free],
      by simp [state_after_receive, state_at_receive, state_after_send, State.log], ?_, ?_, ?_, ?_⟩
    · intro e he; simp at he; rcases he with h | h | h <;> subst h <;> rfl
    · simp [is_send]
    · simp [is_receive]
    · simp [frames_written]
  · obtain ⟨l, hl, hall, hs, hr, hf⟩ := decode_write_frame_ext E
      (avctx.codec.name == "h264_videotoolbox") (receive_result E packet st).2
      (state_after_receive E packet st)
    refine ⟨[Event.av_frame_alloc true,
      Event.avcodec_receive_frame (receive_result E packet st).1] ++ l, ?_, ?_, ?_, ?_, ?_⟩
    · rw [hl]
      simp [state_after_receive, state_at_receive, state_after_send, State.log]
    · intro e he
      simp only [List.mem_append, List.mem_cons, List.mem_singleton, List.not_mem_nil,
        or_false] at he
      rcases he with (h | h) | h
      · subst h; rfl
      · subst h; rfl
      · exact hall e h
    · simp [List.countP_append, hs, is_send, List.countP_cons]
    · simp [List.countP_append, hr, is_receive, List.countP_cons]
    · rw [frames_written_append]
      have : frames_written [Event.av_frame_alloc true,
        Event.avcodec_receive_frame (receive_result E packet st).1] = 0 := by
        simp [frames_written]
      omega

theorem decode_write_hw (E : Env) (avctx : AVCodecContext) (packet : AVPacket)
    (st : State) (hrecv : frame_received E packet st)
    (hname : avctx.codec.name = "h264_videotoolbox")
    (hfmt : (receive_result E packet st).2.format = st.hw_pix_fmt) :
    decode_write E avctx packet st =
      if sw_alloc_result E packet st = false then
        (AVERROR ENOMEM,
          ((state_after_receive E packet st).log (.av_frame_alloc false)).log .av_frame_free)
      else if (transfer_result E packet st).1 < 0 then
        ((transfer_result E packet st).1,
          (((state_at_transfer E packet st).log
            (.av_hwframe_transfer_data (transfer_result E packet st).1)).log
              .av_frame_free).log .av_frame_free)
      else
        (0, ((write_yuv E (transfer_result E packet st).2
          ((state_at_transfer E packet st).log
            (.av_hwframe_transfer_data (transfer_result E packet st).1))).log
              .av_frame_free).log .av_frame_free) := by
  rw [decode_write_received E avctx packet st hrecv, hname]
  have hb : ("h264_videotoolbox" == "h264_videotoolbox") = true := by decide
  rw [hb, decode_write_frame_hw E _ _ (by rw [state_after_receive_hw]; exact hfmt)]
  rfl

/-! ## C2: one receive per packet -/

/-- C2 (as stated) fails: with a backend that has two frames ready after the
packet is sent, the receive loop of the specification writes two frames before
the backend reports "needs more input", but `decode_write` writes one; and the
whole run of `main` on that one-packet input writes one frame, not two. -/
theorem C2_counterexample :
    0 ≤ send_result Env.two_frames sample_packet State.start
    ∧ (spec_decode_write Env.two_frames sample_ctx sample_packet 3 State.start).1 = some 0
    ∧ frames_written
        (spec_decode_write Env.two_frames sample_ctx sample_packet 3 State.start).2.trace = 2
    ∧ (decode_write Env.two_frames sample_ctx sample_packet State.start).1 = 0
    ∧ frames_written
        (decode_write Env.two_frames sample_ctx sample_packet State.start).2.trace = 1
    ∧ (main Env.two_frames 3 sample_argv 5).1.isSome = true
    ∧ frames_written (main Env.two_frames 3 sample_argv 5).2.trace = 1 := by
  decide

/-- C2 (amended): for every packet whose send succeeds, `decode_write` sends
once, calls `avcodec_receive_frame` exactly once when the frame is allocated
(not at all otherwise) and enters the Frame Writer at most once.  When that one
receive reports "needs more input" or "end of stream" it returns 0 and writes
no frame; when it returns a frame, exactly one frame is written and 0 is
returned, provided that, for a frame of the hardware format under the hardware
decoder, the host frame is allocated and the transfer succeeds. -/
theorem C2_one_receive_per_packet (E : Env) (avctx : AVCodecContext) (packet : AVPacket)
    (st : State) (hs : 0 ≤ send_result E packet st) :
    (decode_write E avctx packet st).2.trace.countP is_send = st.trace.countP is_send + 1
    ∧ (decode_write E avctx packet st).2.trace.countP is_receive
        = st.trace.countP is_receive + (if frame_alloc_result E packet st = true then 1 else 0)
    ∧ frames_written (decode_write E avctx packet st).2.trace ≤ frames_written st.trace + 1
    ∧ (frame_alloc_result E packet st = true →
        ((receive_result E packet st).1 = AVERROR EAGAIN
          ∨ (receive_result E packet st).1 = AVERROR_EOF) →
        (decode_write E avctx packet st).1 = 0
        ∧ frames_written (decode_write E avctx packet st).2.trace = frames_written st.trace)
    ∧ (frame_received E packet st →
        (¬ (avctx.codec.name = "h264_videotoolbox"
            ∧ (receive_result E packet st).2.format = st.hw_pix_fmt)
          ∨ (sw_alloc_result E packet st = true ∧ 0 ≤ (transfer_result E packet st).1)) →
        (decode_write E avctx packet st).1 = 0
        ∧ frames_written (decode_write E avctx packet st).2.trace
            = frames_written st.trace + 1) := by
  obtain ⟨l, hl, _, hsend, hrecv, hfr⟩ := decode_write_ext E avctx packet st
  refine ⟨?_, ?_, ?_, ?_, ?_⟩
  · rw [hl]; simp [List.countP_append, List.countP_cons, hsend, is_send]
  · cases ha : frame_alloc_result E packet st with
    | false =>
      rw [decode_write_alloc_fail E avctx packet st hs ha]
      simp [state_after_send, State.log, List.countP_append, List.countP_cons, is_receive]
    | true =>
      have hone : (if (true = true) then 1 else 0 : Nat) = 1 := rfl
      rw [hone, decode_write_unfold, if_neg (not_lt.2 hs), if_neg (by simp [ha])]
      split_ifs with h3 h4
      · simp [state_after_receive, state_at_receive, state_after_send, State.log,
          List.countP_append, List.countP_cons, is_receive]
      · simp [state_after_receive, state_at_receive, state_after_send, State.log,
          List.countP_append, List.countP_cons, is_receive]
      · obtain ⟨l2, hl2, _, _, hr2, _⟩ := decode_write_frame_ext E
          (avctx.codec.name == "h264_videotoolbox") (receive_result E packet st).2
          (state_after_receive E packet st)
        rw [hl2]
        simp [state_after_receive, state_at_receive, state_after_send, State.log,
          List.countP_append, List.countP_cons, is_receive, hr2]
  · rw [hl, frames_written_append]
    have : frames_written
        (Event.avcodec_send_packet (some packet) (send_result E packet st) :: l)
          = frames_written l := by
      simp [frames_written, List.count_cons]
    omega
  · intro ha hr
    rw [decode_write_signal E avctx packet st hs ha hr]
    refine ⟨rfl, ?_⟩
    simp [state_after_receive, state_at_receive, state_after_send, State.log,
      frames_written, List.count_append, List.count_cons]
  · intro hrv hcase
    have hbase : frames_written (state_after_receive E packet st).trace
        = frames_written st.trace := by
      simp [state_after_receive, state_at_receive, state_after_send, State.log,
        frames_written, List.count_append, List.count_cons]
    by_cases hhost : ¬ (avctx.codec.name = "h264_videotoolbox"
            ∧ (receive_result E packet st).2.format = st.hw_pix_fmt)
    · rw [decode_write_host E avctx packet st hrv hhost]
      refine ⟨rfl, ?_⟩
      simp only [State.log, frames_written_append, write_yuv_frames, hbase]
      simp [frames_written]
    · have hhw := not_not.1 hhost
      rcases hcase with h | ⟨hsw, htr⟩
      · exact absurd hhw h
      · rw [decode_write_hw E avctx packet st hrv hhw.1 hhw.2, if_neg (by simp [hsw]),
          if_neg (not_lt.2 htr)]
        refine ⟨rfl, ?_⟩
        simp only [State.log, frames_written_append, write_yuv_frames, state_at_transfer, hbase]
        simp [frames_written]

/-- C2 (amended) at the backend with two frames ready: one receive, at most
one frame written. -/
theorem C2_one_receive_per_packet_witness :
    0 ≤ send_result Env.two_frames sample_packet State.start
    ∧ (decode_write Env.two_frames sample_ctx sample_packet State.start).2.trace.countP is_receive
        = 1
    ∧ frames_written (decode_write Env.two_frames sample_ctx sample_packet State.start).2.trace
        ≤ 1 := by
  have h := C2_one_receive_per_packet Env.two_frames sample_ctx sample_packet State.start
    (by decide)
  refine ⟨by decide, ?_, ?_⟩
  · rw [h.2.1]; decide
  · exact h.2.2.1

/-! ## C3: frames of the hardware format -/

/-- C3 (as stated) fails: under the software decoder `hw_pix_fmt` keeps its
initial value 0, a received frame of format 0 equals it, and `decode_write`
writes the received frame itself, with no transfer. -/
theorem C3_counterexample :
    frame_received Env.sample sample_packet State.start
    ∧ (receive_result Env.sample sample_packet State.start).2.format = State.start.hw_pix_fmt
    ∧ (decode_write Env.sample sample_ctx sample_packet State.start).2.trace.any is_transfer
        = false
    ∧ frames_written (decode_write Env.sample sample_ctx sample_packet State.start).2.trace = 1
    ∧ written_bytes (decode_write Env.sample sample_ctx sample_packet State.start).2.trace
        = spec_frame_bytes (receive_result Env.sample sample_packet State.start).2 := by
  decide

theorem written_bytes_state_at_transfer (E : Env) (packet : AVPacket) (st : State) (r : Int) :
    written_bytes ((state_at_transfer E packet st).log (.av_hwframe_transfer_data r)).trace
      = written_bytes st.trace := by
  simp [state_at_transfer, state_after_receive, state_at_receive, state_after_send, State.log,
    written_bytes]

theorem frames_written_state_after_receive (E : Env) (packet : AVPacket) (st : State) :
    frames_written (state_after_receive E packet st).trace = frames_written st.trace := by
  simp [state_after_receive, state_at_receive, state_after_send, State.log,
    frames_written, List.count_append, List.count_cons]

/-- C3 (amended): for every frame received in `decode_write` while the decoder
is the hardware decoder (codec name `h264_videotoolbox`) and whose pixel format
equals `hw_pix_fmt`: when the host frame is allocated and the transfer succeeds,
the plane-writing section runs on the host frame that the transfer filled (never
on the received frame) and 0 is returned; when the transfer fails nothing is
written and the transfer's negative code is returned; when the host frame cannot
be allocated nothing is written and `AVERROR(ENOMEM)` is returned. -/
theorem C3_hw_frame_transferred (E : Env) (avctx : AVCodecContext) (packet : AVPacket)
    (st : State) (hrecv : frame_received E packet st)
    (hname : avctx.codec.name = "h264_videotoolbox")
    (hfmt : (receive_result E packet st).2.format = st.hw_pix_fmt) :
    (sw_alloc_result E packet st = true → 0 ≤ (transfer_result E packet st).1 →
      decode_write E avctx packet st =
        (0, ((write_yuv E (transfer_result E packet st).2
          ((state_at_transfer E packet st).log
            (.av_hwframe_transfer_data (transfer_result E packet st).1))).log
              .av_frame_free).log .av_frame_free))
    ∧ (sw_alloc_result E packet st = true → (transfer_result E packet st).1 < 0 →
        (decode_write E avctx packet st).1 = (transfer_result E packet st).1
        ∧ written_bytes (decode_write E avctx packet st).2.trace = written_bytes st.trace
        ∧ frames_written (decode_write E avctx packet st).2.trace = frames_written st.trace
        ∧ (decode_write E avctx packet st).2.out = st.out)
    ∧ (sw_alloc_result E packet st = false →
        (decode_write E avctx packet st).1 = AVERROR ENOMEM
        ∧ written_bytes (decode_write E avctx packet st).2.trace = written_bytes st.trace
        ∧ frames_written (decode_write E avctx packet st).2.trace = frames_written st.trace
        ∧ (decode_write E avctx packet st).2.out = st.out) := by
  have h := decode_write_hw E avctx packet st hrecv hname hfmt
  refine ⟨?_, ?_, ?_⟩
  · intro hsw htr
    rw [h, if_neg (by simp [hsw]), if_neg (not_lt.2 htr)]
  · intro hsw htr
    rw [h, if_neg (by simp [hsw]), if_pos htr]
    refine ⟨rfl, ?_, ?_, rfl⟩
    · simp [state_at_transfer, state_after_receive, state_at_receive, state_after_send,
        State.log, written_bytes]
    · simp [state_at_transfer, state_after_receive, state_at_receive, state_after_send,
        State.log, frames_written, List.count_append, List.count_cons]
  · intro hsw
    rw [h, if_pos hsw]
    refine ⟨rfl, ?_, ?_, rfl⟩
    · simp [state_after_receive, state_at_receive, state_after_send,
        State.log, written_bytes]
    · simp [state_after_receive, state_at_receive, state_after_send,
        State.log, frames_written, List.count_append, List.count_cons]

/-- C3 (amended) at a concrete hardware frame: the bytes written are those of
the host frame that the transfer filled. -/
theorem C3_hw_frame_transferred_witness :
    frame_received Env.sample_hw sample_packet { State.start with hw_pix_fmt := 160 }
    ∧ written_bytes (decode_write Env.sample_hw sample_hw_ctx sample_packet
        { State.start with hw_pix_fmt := 160 }).2.trace
        = spec_frame_bytes sample_host_frame := by
  have hr : frame_received Env.sample_hw sample_packet { State.start with hw_pix_fmt := 160 } := by
    decide
  have h := (C3_hw_frame_transferred Env.sample_hw sample_hw_ctx sample_packet
    { State.start with hw_pix_fmt := 160 } hr (by decide) (by decide)).1 (by decide) (by decide)
  refine ⟨hr, ?_⟩
  rw [h]
  decide

/-! ## C8: a failing row write -/

/-- C8 (as stated) fails: with an output stream that accepts no byte every row
write of the frame is short, yet `decode_write` returns 0. -/
theorem C8_counterexample :
    frame_received Env.disk_full sample_packet State.start
    ∧ (decode_write Env.disk_full sample_ctx sample_packet State.start).2.trace.any
        is_short_write = true
    ∧ (decode_write Env.disk_full sample_ctx sample_packet State.start).2.out = []
    ∧ (decode_write Env.disk_full sample_ctx sample_packet State.start).1 = 0 := by
  decide

theorem decode_write_frame_ret_indep (E : Env) (g : List Event → List Byte → Nat)
    (using_hw : Bool) (frame : AVFrame) (st : State) :
    (decode_write_frame { E with fwrite_accepts := g } using_hw frame st).1
      = (decode_write_frame E using_hw frame st).1 := by
  simp only [decode_write_frame]
  split_ifs <;> rfl

theorem write_plane_fwrites (E : Env) (data : Int → Byte) (ls : Int) (cnt : Nat) :
    ∀ (n : Nat) (i : Int) (st : State),
      (write_plane E data ls cnt n i st).trace.countP is_fwrite
        = st.trace.countP is_fwrite + n := by
  intro n
  induction n with
  | zero => intro i st; simp [write_plane]
  | succ n ih =>
    intro i st
    rw [write_plane, ih]
    simp only [fwrite, List.countP_append, List.countP_cons, List.countP_nil, is_fwrite]
    simp
    omega

theorem write_yuv_fwrites (E : Env) (f : AVFrame) (st : State) :
    (write_yuv E f st).trace.countP is_fwrite
      = st.trace.countP is_fwrite + (f.height.toNat + 2 * (f.height.tdiv 2).toNat) := by
  simp only [write_yuv, write_plane_fwrites, State.log, List.countP_append, List.countP_cons,
    List.countP_nil, is_fwrite]
  simp
  omega

theorem fwrites_state_after_receive (E : Env) (packet : AVPacket) (st : State) :
    (state_after_receive E packet st).trace.countP is_fwrite = st.trace.countP is_fwrite := by
  simp [state_after_receive, state_at_receive, state_after_send, State.log,
    List.countP_append, List.countP_cons, is_fwrite]

theorem fwrites_state_at_transfer (E : Env) (packet : AVPacket) (st : State) (r : Int) :
    ((state_at_transfer E packet st).log (.av_hwframe_transfer_data r)).trace.countP is_fwrite
      = st.trace.countP is_fwrite := by
  simp [state_at_transfer, state_after_receive, state_at_receive, state_after_send, State.log,
    List.countP_append, List.countP_cons, is_fwrite]

/-- C8 (amended): `decode_write` does not look at the result of any row write.
Its return value is the same whatever the output stream accepts.  Once a frame
is received (and, for a hardware frame, the host frame is allocated and
filled), then whether or not a row write is short: it returns 0; it calls
`fwrite` once for every row of the frame written (`height` rows of plane 0 and
`height/2` rows of each of planes 1 and 2); and, for a frame with width and
height not negative whose row offsets fit in an `int`, the bytes it hands to
`fwrite` are all the bytes of the frame, in the order of the Frame Writer
contract. -/
theorem C8_write_result_ignored (E : Env) (g : List Event → List Byte → Nat)
    (avctx : AVCodecContext) (packet : AVPacket) (st : State) :
    (decode_write { E with fwrite_accepts := g } avctx packet st).1
      = (decode_write E avctx packet st).1
    ∧ (frame_received E packet st →
        ¬ (avctx.codec.name = "h264_videotoolbox"
            ∧ (receive_result E packet st).2.format = st.hw_pix_fmt) →
        (decode_write E avctx packet st).1 = 0
        ∧ (decode_write E avctx packet st).2.trace.countP is_fwrite
            = st.trace.countP is_fwrite
              + ((receive_result E packet st).2.height.toNat
                + 2 * ((receive_result E packet st).2.height.tdiv 2).toNat)
        ∧ (0 ≤ (receive_result E packet st).2.width →
            0 ≤ (receive_result E packet st).2.height →
            frame_rows_fit (receive_result E packet st).2 →
            written_bytes (decode_write E avctx packet st).2.trace
              = written_bytes st.trace ++ spec_frame_bytes (receive_result E packet st).2))
    ∧ (frame_received E packet st →
        (avctx.codec.name = "h264_videotoolbox"
            ∧ (receive_result E packet st).2.format = st.hw_pix_fmt) →
        sw_alloc_result E packet st = true → 0 ≤ (transfer_result E packet st).1 →
        (decode_write E avctx packet st).1 = 0
        ∧ (decode_write E avctx packet st).2.trace.countP is_fwrite
            = st.trace.countP is_fwrite
              + ((transfer_result E packet st).2.height.toNat
                + 2 * ((transfer_result E packet st).2.height.tdiv 2).toNat)
        ∧ (0 ≤ (transfer_result E packet st).2.width →
            0 ≤ (transfer_result E packet st).2.height →
            frame_rows_fit (transfer_result E packet st).2 →
            written_bytes (decode_write E avctx packet st).2.trace
              = written_bytes st.trace ++ spec_frame_bytes (transfer_result E packet st).2)) := by
  refine ⟨?_, ?_, ?_⟩
  · rw [decode_write_unfold, decode_write_unfold]
    have e1 : send_result { E with fwrite_accepts := g } packet st = send_result E packet st :=
      rfl
    have e2 : frame_alloc_result { E with fwrite_accepts := g } packet st
        = frame_alloc_result E packet st := rfl
    have e3 : receive_result { E with fwrite_accepts := g } packet st
        = receive_result E packet st := rfl
    have e4 : state_after_receive { E with fwrite_accepts := g } packet st
        = state_after_receive E packet st := rfl
    have e5 : state_after_send { E with fwrite_accepts := g } packet st
        = state_after_send E packet st := rfl
    rw [e1, e2, e3, e4, e5]
    split_ifs
    · rfl
    · rfl
    · rfl
    · rfl
    · exact decode_write_frame_ret_indep E g _ _ _
  · intro hrv hhost
    rw [decode_write_host E avctx packet st hrv hhost]
    refine ⟨rfl, ?_, ?_⟩
    · show ((write_yuv _ _ _).log _).trace.countP is_fwrite = _
      rw [log_trace]
      simp only [List.countP_append, write_yuv_fwrites, fwrites_state_after_receive]
      simp [is_fwrite]
    · intro hw hh hfit
      show written_bytes ((write_yuv _ _ _).log _).trace = _
      rw [log_trace]
      simp only [written_bytes_append, write_yuv_written E _ _ hw hh hfit,
        written_bytes_state_after_receive]
      simp [written_bytes]
  · intro hrv hhw hsw htr
    rw [decode_write_hw E avctx packet st hrv hhw.1 hhw.2, if_neg (by simp [hsw]),
      if_neg (not_lt.2 htr)]
    refine ⟨rfl, ?_, ?_⟩
    · show (((write_yuv _ _ _).log _).log _).trace.countP is_fwrite = _
      rw [log_trace, log_trace]
      simp only [List.countP_append, write_yuv_fwrites, fwrites_state_at_transfer]
      simp [is_fwrite]
    · intro hw hh hfit
      show written_bytes (((write_yuv _ _ _).log _).log _).trace = _
      rw [log_trace, log_trace]
      simp only [written_bytes_append, write_yuv_written E _ _ hw hh hfit,
        written_bytes_state_at_transfer]
      simp [written_bytes]

/-- C8 (amended) at a concrete frame and an output stream that accepts nothing:
every row write is short, all six bytes of the frame are handed to `fwrite` in
four calls, and the result of `decode_write` is 0, the same as with a stream
that accepts everything. -/
theorem C8_write_result_ignored_witness :
    (decode_write Env.disk_full sample_ctx sample_packet State.start).2.trace.all
        (fun e => !is_fwrite e || is_short_write e) = true
    ∧ (decode_write Env.disk_full sample_ctx sample_packet State.start).1
        = (decode_write Env.sample sample_ctx sample_packet State.start).1
    ∧ (decode_write Env.disk_full sample_ctx sample_packet State.start).1 = 0
    ∧ (decode_write Env.disk_full sample_ctx sample_packet State.start).2.trace.countP is_fwrite
        = 4
    ∧ written_bytes (decode_write Env.disk_full sample_ctx sample_packet State.start).2.trace
        = [10, 11, 13, 14, 20, 30] := by
  have h1 := (C8_write_result_ignored Env.sample (fun _ _ => 0) sample_ctx sample_packet
    State.start).1
  have h2 := (C8_write_result_ignored Env.disk_full (fun _ _ => 0) sample_ctx sample_packet
    State.start).2.1 (by decide) (by decide)
  refine ⟨by decide, h1, h2.1, ?_, ?_⟩
  · rw [h2.2.1]; decide
  · rw [h2.2.2 (by decide) (by decide) (by decide)]; decide

/-! ## The decode phase of `main` -/

theorem is_decode_phase (e : Event) (h : is_decode_event e = true) : is_phase_event e = true := by
  cases e <;> simp_all [is_decode_event, is_phase_event]

theorem decode_write_all (E : Env) (avctx : AVCodecContext) (packet : AVPacket) (st : State) :
    ∃ l, (decode_write E avctx packet st).2.trace = st.trace ++ l
      ∧ ∀ e ∈ l, is_decode_event e = true := by
  obtain ⟨l, hl, hall, _⟩ := decode_write_ext E avctx packet st
  refine ⟨_ :: l, hl, ?_⟩
  intro e he
  rcases List.mem_cons.1 he with h | h
  · subst h; rfl
  · exact hall e h

theorem flush_loop_ext (E : Env) (ctx : AVCodecContext) (packet : AVPacket) :
    ∀ (fuel : Nat) (st : State),
      ∃ l, (flush_loop E ctx packet fuel st).2.trace = st.trace ++ l
        ∧ ∀ e ∈ l, is_decode_event e = true := by
  intro fuel
  induction fuel with
  | zero => intro st; exact ⟨[], by simp [flush_loop], by simp⟩
  | succ n ih =>
    intro st
    obtain ⟨l1, h1, a1⟩ := decode_write_all E ctx packet st
    simp only [flush_loop]
    split_ifs
    · exact ⟨l1, h1, a1⟩
    · exact ⟨l1, h1, a1⟩
    · obtain ⟨l2, h2, a2⟩ := ih (decode_write E ctx packet st).2
      refine ⟨l1 ++ l2, by rw [h2, h1, List.append_assoc], ?_⟩
      intro e he
      rcases List.mem_append.1 he with h | h
      · exact a1 e h
      · exact a2 e h

theorem flush_ext (E : Env) (ctx : AVCodecContext) (packet : AVPacket) (fuel : Nat)
    (st : State) :
    ∃ l, (flush E ctx packet fuel st).2.trace
        = st.trace ++ Event.avcodec_send_packet none (E.avcodec_send_packet st.trace none) :: l
      ∧ ∀ e ∈ l, is_decode_event e = true := by
  simp only [flush]
  split_ifs
  · obtain ⟨l, hl, hall⟩ := flush_loop_ext E ctx packet fuel
      (st.log (.avcodec_send_packet none (E.avcodec_send_packet st.trace none)))
    exact ⟨l, by rw [hl]; simp [State.log], hall⟩
  · exact ⟨[], by simp [State.log], by simp⟩

theorem packet_loop_ext (E : Env) (ctx : AVCodecContext) (vidx : Int) :
    ∀ (fuel : Nat) (packet : AVPacket) (st : State),
      ∃ l, (packet_loop E ctx vidx fuel packet st).2.2.trace = st.trace ++ l
        ∧ ∀ e ∈ l, is_phase_event e = true := by
  intro fuel
  induction fuel with
  | zero => intro packet st; exact ⟨[], by simp [packet_loop], by simp⟩
  | succ n ih =>
    intro packet st
    simp only [packet_loop]
    split_ifs
    · exact ⟨[Event.av_read_frame (E.av_read_frame st.trace).1
          (E.av_read_frame st.trace).2.stream_index], by simp [State.log],
        by intro e he; simp at he; subst he; rfl⟩
    · obtain ⟨l1, h1, a1⟩ := decode_write_all E ctx (E.av_read_frame st.trace).2
        (st.log (.av_read_frame (E.av_read_frame st.trace).1
          (E.av_read_frame st.trace).2.stream_index))
      refine ⟨Event.av_read_frame (E.av_read_frame st.trace).1
          (E.av_read_frame st.trace).2.stream_index :: l1, by rw [h1]; simp [State.log], ?_⟩
      intro e he
      rcases List.mem_cons.1 he with h | h
      · subst h; rfl
      · exact is_decode_phase e (a1 e h)
    · obtain ⟨l1, h1, a1⟩ := decode_write_all E ctx (E.av_read_frame st.trace).2
        (st.log (.av_read_frame (E.av_read_frame st.trace).1
          (E.av_read_frame st.trace).2.stream_index))
      obtain ⟨l2, h2, a2⟩ := ih AVPacket.blank
        ((decode_write E ctx (E.av_read_frame st.trace).2
          (st.log (.av_read_frame (E.av_read_frame st.trace).1
            (E.av_read_frame st.trace).2.stream_index))).2.log .av_packet_unref)
      refine ⟨Event.av_read_frame (E.av_read_frame st.trace).1
          (E.av_read_frame st.trace).2.stream_index :: l1 ++ Event.av_packet_unref :: l2, ?_, ?_⟩
      · rw [h2, log_trace, h1, log_trace]
        simp [List.append_assoc]
      · intro e he
        simp only [List.mem_append, List.mem_cons] at he
        rcases he with (h | h) | h | h
        · subst h; rfl
        · exact is_decode_phase e (a1 e h)
        · subst h; rfl
        · exact a2 e h
    · obtain ⟨l2, h2, a2⟩ := ih AVPacket.blank
        ((st.log (.av_read_frame (E.av_read_frame st.trace).1
            (E.av_read_frame st.trace).2.stream_index)).log .av_packet_unref)
      refine ⟨Event.av_read_frame (E.av_read_frame st.trace).1
          (E.av_read_frame st.trace).2.stream_index :: Event.av_packet_unref :: l2, ?_, ?_⟩
      · rw [h2]
        simp [State.log, List.append_assoc]
      · intro e he
        simp only [List.mem_cons] at he
        rcases he with h | h | h
        · subst h; rfl
        · subst h; rfl
        · exact a2 e h

theorem decode_phase_ext (E : Env) (ctx : AVCodecContext) (vidx : Int) (fuel : Nat)
    (st : State) :
    ∃ l, (decode_phase E ctx vidx fuel st).2.trace = st.trace ++ l
      ∧ ∀ e ∈ l, is_phase_event e = true := by
  obtain ⟨l1, h1, a1⟩ := packet_loop_ext E ctx vidx fuel AVPacket.blank st
  unfold decode_phase
  rcases hp : packet_loop E ctx vidx fuel AVPacket.blank st with ⟨r, pkt, st1⟩
  rw [hp] at h1
  cases r with
  | none => exact ⟨l1, h1, a1⟩
  | some ret =>
    obtain ⟨l2, h2, a2⟩ := flush_ext E ctx pkt fuel st1
    refine ⟨l1 ++ Event.avcodec_send_packet none (E.avcodec_send_packet st1.trace none) :: l2,
      ?_, ?_⟩
    · show (flush E ctx pkt fuel st1).2.trace = _
      rw [h2]
      simp only [] at h1
      rw [h1, List.append_assoc]
    · intro e he
      simp only [List.mem_append, List.mem_cons] at he
      rcases he with h | h | h
      · exact a1 e h
      · subst h; rfl
      · exact is_decode_phase e (a2 e h)

/-- C10 (the code at the failing input): the container has only an audio
stream and `avformat_find_stream_info` returned 0.  `main` reads no packet and
goes to cleanup, but returns 0, not a negative status. -/
theorem C10_no_video_stream_returns_zero :
    ∀ fuel, (main Env.audio_only 3 sample_argv fuel).1 = some 0
      ∧ (main Env.audio_only 3 sample_argv fuel).2.trace.any is_read = false
      ∧ (main Env.audio_only 3 sample_argv fuel).2.trace.any is_send = false := by
  intro fuel
  refine ⟨rfl, rfl, rfl⟩

theorem find_video_stream_none (l : List AVStream) :
    ∀ (i : Nat), (∀ s ∈ l, s.codec_type ≠ AVMEDIA_TYPE_VIDEO) → find_video_stream l i = -1 := by
  induction l with
  | nil => intro i _; rfl
  | cons s rest ih =>
    intro i h
    have hs : s.codec_type ≠ AVMEDIA_TYPE_VIDEO := h s (List.mem_cons_self _ _)
    simp only [find_video_stream, hs, if_false]
    exact ih (i + 1) (fun t ht => h t (List.mem_cons_of_mem _ ht))

/-- The stream that `main` selects is the first video stream: if the stream at
index `k` is a video stream and none before it is, the loop of lines 205-211
yields `k` (counted from the start index `i`). -/
theorem find_video_stream_first (l : List AVStream) :
    ∀ (i k : Nat) (s : AVStream), l[k]? = some s → s.codec_type = AVMEDIA_TYPE_VIDEO →
      (∀ j < k, ∀ t, l[j]? = some t → t.codec_type ≠ AVMEDIA_TYPE_VIDEO) →
      find_video_stream l i = (i : Int) + (k : Int) := by
  induction l with
  | nil => intro i k s hk; simp at hk
  | cons a rest ih =>
    intro i k s hk hv hmin
    cases k with
    | zero =>
      simp only [List.getElem?_cons_zero, Option.some.injEq] at hk
      subst hk
      simp [find_video_stream, hv]
    | succ k =>
      have ha : a.codec_type ≠ AVMEDIA_TYPE_VIDEO := hmin 0 (Nat.succ_pos k) a (by simp)
      simp only [find_video_stream, ha, if_false]
      rw [ih (i + 1) k s (by simpa using hk) hv
        (fun j hj t ht => hmin (j + 1) (Nat.succ_lt_succ hj) t (by simpa using ht))]
      push_cast
      ring

/-! ## C7: a decode error in the packet loop -/

/-- C7 (as stated) fails: the receive for the first video packet fails with
`-1094995529`, so `decode_write` returns that code; `main` reads no further
packet but still sends the `NULL` packet and calls `decode_write` once more
(whose send the draining backend refuses with end of stream), and the status it
returns is `AVERROR_EOF`, not the decode error. -/
theorem C7_counterexample :
    (decode_write Env.decode_error sample_ctx sample_packet
        { trace := (main Env.decode_error 3 sample_argv 5).2.trace.take 10,
          out := [], hw_pix_fmt := 0 }).1 = -1094995529
    ∧ (main Env.decode_error 3 sample_argv 5).2.trace.drop 9 =
        [Event.av_read_frame 0 1,
         Event.avcodec_send_packet (some sample_packet) 0,
         Event.av_frame_alloc true,
         Event.avcodec_receive_frame (-1094995529),
         Event.av_frame_free,
         Event.avcodec_send_packet none 0,
         Event.avcodec_send_packet (some sample_packet) AVERROR_EOF,
         Event.fclose,
         Event.av_packet_free true,
         Event.avcodec_free_context true,
         Event.av_buffer_unref false,
         Event.avformat_close_input true]
    ∧ (main Env.decode_error 3 sample_argv 5).1 = some AVERROR_EOF
    ∧ AVERROR_EOF ≠ -1094995529 := by
  decide

theorem packet_loop_succ_packet (E : Env) (ctx : AVCodecContext) (vidx : Int) (fuel : Nat)
    (p q : AVPacket) (st : State) :
    packet_loop E ctx vidx (fuel + 1) p st = packet_loop E ctx vidx (fuel + 1) q st := by
  simp only [packet_loop]

theorem packet_loop_of_step (E : Env) (ctx : AVCodecContext) (vidx : Int) (fuel : Nat)
    (p : AVPacket) (st st1 : State) (h : packet_loop_step E ctx vidx st = some st1) :
    packet_loop E ctx vidx (fuel + 1) p st = packet_loop E ctx vidx fuel AVPacket.blank st1 := by
  simp only [packet_loop_step] at h
  simp only [packet_loop]
  split_ifs at h ⊢ with h1 h2 h3
  · simp only [Option.some.injEq] at h
    rw [h]
  · simp only [Option.some.injEq] at h
    rw [h]

theorem packet_loop_of_head (E : Env) (ctx : AVCodecContext) (vidx : Int) :
    ∀ (k fuel : Nat) (p : AVPacket) (st0 st : State),
      packet_loop_head E ctx vidx k st0 = some st →
      packet_loop E ctx vidx (k + (fuel + 1)) p st0
        = packet_loop E ctx vidx (fuel + 1) AVPacket.blank st := by
  intro k
  induction k with
  | zero =>
    intro fuel p st0 st h
    simp only [packet_loop_head, Option.some.injEq] at h
    subst h
    rw [Nat.zero_add]
    exact packet_loop_succ_packet E ctx vidx fuel p AVPacket.blank st0
  | succ k ih =>
    intro fuel p st0 st h
    simp only [packet_loop_head] at h
    cases hs : packet_loop_step E ctx vidx st0 with
    | none => rw [hs] at h; simp at h
    | some st1 =>
      rw [hs] at h
      have e : k + 1 + (fuel + 1) = (k + (fuel + 1)) + 1 := by omega
      rw [e, packet_loop_of_step E ctx vidx _ p st0 st1 hs]
      exact ih fuel AVPacket.blank st1 st h

/-- C7 (amended): start the decode phase of `main` (lines 286-324) in any
state `st0`, and let `st` be the state at the head of the packet loop after `k`
full passes.  When in the next pass a packet of the video stream is read and
`decode_write` returns a negative code for it, the packet loop is left at once
(no further packet is read) and the flush follows from the state that
`decode_write` left: its first call is the send of the `NULL` packet, and all
it does after are calls of `decode_write` (no `av_read_frame`). -/
theorem C7_decode_error_then_flush (E : Env) (ctx : AVCodecContext) (vidx : Int)
    (k fuel : Nat) (st0 st : State)
    (hreach : packet_loop_head E ctx vidx k st0 = some st)
    (hread : 0 ≤ (E.av_read_frame st.trace).1)
    (hvid : (E.av_read_frame st.trace).2.stream_index = vidx)
    (herr : (decode_write E ctx (E.av_read_frame st.trace).2
      (st.log (.av_read_frame (E.av_read_frame st.trace).1
        (E.av_read_frame st.trace).2.stream_index))).1 < 0) :
    packet_loop E ctx vidx (k + (fuel + 1)) AVPacket.blank st0
      = (some (decode_write E ctx (E.av_read_frame st.trace).2
          (st.log (.av_read_frame (E.av_read_frame st.trace).1
            (E.av_read_frame st.trace).2.stream_index))).1,
         (E.av_read_frame st.trace).2,
         (decode_write E ctx (E.av_read_frame st.trace).2
          (st.log (.av_read_frame (E.av_read_frame st.trace).1
            (E.av_read_frame st.trace).2.stream_index))).2)
    ∧ decode_phase E ctx vidx (k + (fuel + 1)) st0
      = flush E ctx (E.av_read_frame st.trace).2 (k + (fuel + 1))
          (decode_write E ctx (E.av_read_frame st.trace).2
            (st.log (.av_read_frame (E.av_read_frame st.trace).1
              (E.av_read_frame st.trace).2.stream_index))).2
    ∧ ∃ l, (decode_phase E ctx vidx (k + (fuel + 1)) st0).2.trace
        = (decode_write E ctx (E.av_read_frame st.trace).2
            (st.log (.av_read_frame (E.av_read_frame st.trace).1
              (E.av_read_frame st.trace).2.stream_index))).2.trace
          ++ Event.avcodec_send_packet none
              (E.avcodec_send_packet (decode_write E ctx (E.av_read_frame st.trace).2
                (st.log (.av_read_frame (E.av_read_frame st.trace).1
                  (E.av_read_frame st.trace).2.stream_index))).2.trace none) :: l
        ∧ (∀ e ∈ l, is_decode_event e = true) ∧ l.countP is_read = 0 := by
  have hhead : ∀ p0, packet_loop E ctx vidx (fuel + 1) p0 st
      = (some (decode_write E ctx (E.av_read_frame st.trace).2
          (st.log (.av_read_frame (E.av_read_frame st.trace).1
            (E.av_read_frame st.trace).2.stream_index))).1,
         (E.av_read_frame st.trace).2,
         (decode_write E ctx (E.av_read_frame st.trace).2
          (st.log (.av_read_frame (E.av_read_frame st.trace).1
            (E.av_read_frame st.trace).2.stream_index))).2) := by
    intro p0
    simp only [packet_loop, not_lt.2 hread, if_false]
    rw [if_pos hvid, if_pos herr]
  have hloop : packet_loop E ctx vidx (k + (fuel + 1)) AVPacket.blank st0
      = (some (decode_write E ctx (E.av_read_frame st.trace).2
          (st.log (.av_read_frame (E.av_read_frame st.trace).1
            (E.av_read_frame st.trace).2.stream_index))).1,
         (E.av_read_frame st.trace).2,
         (decode_write E ctx (E.av_read_frame st.trace).2
          (st.log (.av_read_frame (E.av_read_frame st.trace).1
            (E.av_read_frame st.trace).2.stream_index))).2) := by
    rw [packet_loop_of_head E ctx vidx k fuel AVPacket.blank st0 st hreach]
    exact hhead _
  have hphase : decode_phase E ctx vidx (k + (fuel + 1)) st0
      = flush E ctx (E.av_read_frame st.trace).2 (k + (fuel + 1))
          (decode_write E ctx (E.av_read_frame st.trace).2
            (st.log (.av_read_frame (E.av_read_frame st.trace).1
              (E.av_read_frame st.trace).2.stream_index))).2 := by
    unfold decode_phase
    rw [hloop]
  refine ⟨hloop, hphase, ?_⟩
  rw [hphase]
  obtain ⟨l, hl, hall⟩ := flush_ext E ctx (E.av_read_frame st.trace).2 (k + (fuel + 1))
    (decode_write E ctx (E.av_read_frame st.trace).2
      (st.log (.av_read_frame (E.av_read_frame st.trace).1
        (E.av_read_frame st.trace).2.stream_index))).2
  refine ⟨l, hl, hall, ?_⟩
  rw [List.countP_eq_zero]
  intro e he
  have := hall e he
  cases e <;> simp_all [is_decode_event, is_read]

/-- C7 (amended) at a backend that decodes the first packet and fails on the
second: after one full pass the second `decode_write` fails, no third packet
is read, and the decode phase is the flush started from the state that the
failing call left. -/
theorem C7_decode_error_then_flush_witness :
    (decode_phase Env.late_decode_error sample_ctx 1 5 State.start).2.trace.countP is_read = 2
    ∧ decode_phase Env.late_decode_error sample_ctx 1 5 State.start
      = flush Env.late_decode_error sample_ctx sample_packet 5
          (decode_write Env.late_decode_error sample_ctx sample_packet
            (((packet_loop_head Env.late_decode_error sample_ctx 1 1 State.start).getD
              State.start).log (.av_read_frame 0 1))).2 := by
  have h := C7_decode_error_then_flush Env.late_decode_error sample_ctx 1 1 3
    State.start
    ((packet_loop_head Env.late_decode_error sample_ctx 1 1 State.start).getD State.start)
    (by decide) (by decide) (by decide) (by decide)
  exact ⟨by decide, h.2.1⟩

/-! ## C9: the cleanup block -/

theorem res_ops_append (a b : List Event) : res_ops (a ++ b) = res_ops a ++ res_ops b := by
  simp [res_ops, List.filterMap_append]

theorem res_ops_phase (l : List Event) (hl : ∀ e ∈ l, is_phase_event e = true) :
    res_ops l = [] := by
  unfold res_ops
  rw [List.filterMap_eq_nil_iff]
  intro e he
  have h := hl e he
  cases e <;> first | rfl | (simp [is_phase_event, is_decode_event] at h)

theorem cleanup_status (l : Locals) (ret : Int) (st : State) : (cleanup l ret st).1 = ret := rfl

theorem cleanup_res_ops (l : Locals) (ret : Int) (st : State) :
    res_ops (cleanup l ret st).2.trace = res_ops st.trace ++ cleanup_ops l := by
  rcases l with ⟨a, b, c, d, e⟩
  cases a <;> cases b <;> cases c <;> cases d <;> cases e <;>
    simp [cleanup, cleanup_ops, State.log, res_ops, res_op, List.filterMap_append]

theorem init_decoder_res_ops (E : Env) (st : State) :
    res_ops (init_decoder E st).2.trace = res_ops st.trace
    ∨ res_ops (init_decoder E st).2.trace
        = res_ops st.trace ++ [ResOp.hw_create, ResOp.hw_unref] := by
  simp only [init_decoder]
  cases E.avcodec_find_decoder_by_name "h264_videotoolbox" with
  | none =>
    left
    simp [init_decoder_fallback, State.log, res_ops, res_op, List.filterMap_append]
  | some d =>
    simp only []
    split_ifs with h
    · right
      simp only [State.log, Option.isSome_some] at h
      simp [State.log, res_ops, res_op, List.filterMap_append, h]
    · left
      simp only [State.log, Option.isSome_some] at h
      simp [init_decoder_fallback, State.log, res_ops, res_op, List.filterMap_append, h]

theorem main_open_decode_res_ops (E : Env) (argv : List String) (ctx : AVCodecContext)
    (vidx : Int) (l : Locals) (fuel : Nat) (st : State) :
    ∃ X, res_ops (main_open_decode E argv ctx vidx l fuel st).2.trace = res_ops st.trace ++ X
      ∧ (((main_open_decode E argv ctx vidx l fuel st).1 = none
          ∧ X = [ResOp.file_open, ResOp.packet_alloc])
        ∨ (X = cleanup_ops l)
        ∨ (∃ errno : Nat, (main_open_decode E argv ctx vidx l fuel st).1 = some (-(errno : Int))
            ∧ X = ResOp.fopen_failed errno :: cleanup_ops l)
        ∨ (X = ResOp.file_open :: cleanup_ops { l with output_file := true })
        ∨ (X = ResOp.file_open :: ResOp.packet_alloc
              :: cleanup_ops { l with output_file := true, packet := true })) := by
  by_cases h1 : E.avcodec_open2 st.trace < 0
  · refine ⟨_, ?_, Or.inr (Or.inl rfl)⟩
    simp only [main_open_decode, h1, if_true]
    simp only [Prod.map, id, cleanup_res_ops, log_trace, res_ops_append]
    simp [res_ops, res_op, h1]
  · cases hf : E.fopen (st.log (Event.avcodec_open2 (E.avcodec_open2 st.trace))).trace
        (argv.getD 2 "") with
    | some errno =>
      refine ⟨_, ?_, Or.inr (Or.inr (Or.inl ⟨errno, ?_, rfl⟩))⟩
      · simp only [main_open_decode, h1, if_false, hf]
        simp only [Prod.map, id, cleanup_res_ops, log_trace, res_ops_append]
        simp [res_ops, res_op, not_lt.1 h1]
      · simp only [main_open_decode, h1, if_false, hf]
        simp only [Prod.map, cleanup_status]
    | none =>
      cases hp : E.av_packet_alloc
          ((st.log (Event.avcodec_open2 (E.avcodec_open2 st.trace))).log
            (Event.fopen (argv.getD 2 "") none)).trace with
      | false =>
        refine ⟨_, ?_, Or.inr (Or.inr (Or.inr (Or.inl rfl)))⟩
        simp only [main_open_decode, h1, if_false, hf, hp, Bool.not_false, if_true]
        simp only [Prod.map, id, cleanup_res_ops, log_trace, res_ops_append]
        simp [res_ops, res_op, not_lt.1 h1]
      | true =>
        obtain ⟨ev, hl, hall⟩ := decode_phase_ext E ctx vidx fuel
          (((st.log (Event.avcodec_open2 (E.avcodec_open2 st.trace))).log
            (Event.fopen (argv.getD 2 "") none)).log (Event.av_packet_alloc true))
        simp only [main_open_decode, h1, if_false, hf, hp, Bool.not_true, Bool.false_eq_true]
        revert hl
        generalize decode_phase E ctx vidx fuel _ = d
        intro hl
        rcases d with ⟨_ | ret, st4⟩
        · refine ⟨_, ?_, Or.inl ⟨rfl, rfl⟩⟩
          simp only [] at hl ⊢
          rw [hl]
          simp only [log_trace, res_ops_append, res_ops_phase ev hall]
          simp [res_ops, res_op, not_lt.1 h1]
        · refine ⟨_, ?_, Or.inr (Or.inr (Or.inr (Or.inr rfl)))⟩
          simp only [] at hl ⊢
          simp only [Prod.map, cleanup_res_ops, id]
          rw [hl]
          simp only [log_trace, res_ops_append, res_ops_phase ev hall]
          simp [res_ops, res_op, not_lt.1 h1]

theorem ops_goal_closed (s : Option Int) (st : State) (ops : List ResOp)
    (h : res_ops st.trace = ops) (hno : ResOp.open_input ∉ ops)
    (hnf : ∀ errno, ResOp.fopen_failed errno ∉ ops) :
    (∀ status, s = some status → ResOp.open_input ∈ res_ops st.trace →
        released_once st.trace)
    ∧ (∀ errno, ResOp.fopen_failed errno ∈ res_ops st.trace →
        s = some (-(errno : Int)) ∧ ResOp.open_input ∈ res_ops st.trace
        ∧ released_once st.trace) := by
  rw [h]
  exact ⟨fun _ _ hm => absurd hm hno, fun e hm => absurd hm (hnf e)⟩

theorem ops_goal_released (s : Option Int) (st : State) (ops : List ResOp)
    (h : res_ops st.trace = ops)
    (hrel : (ops.count .close_input = 1
      ∧ ops.count .free_ctx = ops.count .alloc_ctx ∧ ops.count .alloc_ctx ≤ 1
      ∧ ops.count .hw_unref = ops.count .hw_create ∧ ops.count .hw_create ≤ 2
      ∧ ops.count .packet_free = ops.count .packet_alloc ∧ ops.count .packet_alloc ≤ 1
      ∧ ops.count .file_close = ops.count .file_open ∧ ops.count .file_open ≤ 1))
    (hopen : ResOp.open_input ∈ ops)
    (hnf : ∀ errno, ResOp.fopen_failed errno ∈ ops → s = some (-(errno : Int))) :
    (∀ status, s = some status → ResOp.open_input ∈ res_ops st.trace →
        released_once st.trace)
    ∧ (∀ errno, ResOp.fopen_failed errno ∈ res_ops st.trace →
        s = some (-(errno : Int)) ∧ ResOp.open_input ∈ res_ops st.trace
        ∧ released_once st.trace) := by
  have hr : released_once st.trace := by
    unfold released_once
    rw [h]
    exact hrel
  rw [h]
  exact ⟨fun _ _ _ => hr, fun e hm => ⟨hnf e hm, hopen, hr⟩⟩

theorem ops_goal_pending (s : Option Int) (st : State) (ops : List ResOp)
    (h : res_ops st.trace = ops) (hnone : s = none)
    (hnf : ∀ errno, ResOp.fopen_failed errno ∉ ops) :
    (∀ status, s = some status → ResOp.open_input ∈ res_ops st.trace →
        released_once st.trace)
    ∧ (∀ errno, ResOp.fopen_failed errno ∈ res_ops st.trace →
        s = some (-(errno : Int)) ∧ ResOp.open_input ∈ res_ops st.trace
        ∧ released_once st.trace) := by
  rw [h]
  refine ⟨fun s hs => ?_, fun e hm => absurd hm (hnf e)⟩
  rw [hnone] at hs
  exact absurd hs (by simp)

/-- The part of `main` after the hardware setup keeps the balance: if the
resource operations before it are `pre`, with the input opened and the decoder
context allocated (and the hardware reference created when `l.hw_device_ctx`),
every resource is released once when `main` returns. -/
theorem main_open_decode_goal (E : Env) (argv : List String) (ctx : AVCodecContext)
    (vidx : Int) (hw : Bool) (fuel : Nat) (st : State) (X0 : List ResOp)
    (hX0 : X0 = [] ∨ X0 = [ResOp.hw_create, ResOp.hw_unref])
    (hpre : res_ops st.trace
      = X0 ++ [ResOp.open_input, ResOp.alloc_ctx] ++ (if hw = true then [ResOp.hw_create] else [])) :
    (∀ status, (main_open_decode E argv ctx vidx ⟨false, false, true, hw, true⟩ fuel st).1
          = some status →
        ResOp.open_input ∈ res_ops
          (main_open_decode E argv ctx vidx ⟨false, false, true, hw, true⟩ fuel st).2.trace →
        released_once
          (main_open_decode E argv ctx vidx ⟨false, false, true, hw, true⟩ fuel st).2.trace)
    ∧ (∀ errno, ResOp.fopen_failed errno ∈ res_ops
          (main_open_decode E argv ctx vidx ⟨false, false, true, hw, true⟩ fuel st).2.trace →
        (main_open_decode E argv ctx vidx ⟨false, false, true, hw, true⟩ fuel st).1
          = some (-(errno : Int))
        ∧ ResOp.open_input ∈ res_ops
          (main_open_decode E argv ctx vidx ⟨false, false, true, hw, true⟩ fuel st).2.trace
        ∧ released_once
          (main_open_decode E argv ctx vidx ⟨false, false, true, hw, true⟩ fuel st).2.trace) := by
  obtain ⟨X, hX, hcase⟩ := main_open_decode_res_ops E argv ctx vidx
    ⟨false, false, true, hw, true⟩ fuel st
  rw [hpre] at hX
  rcases hcase with ⟨hn, rfl⟩ | rfl | ⟨errno, hs, rfl⟩ | rfl | rfl
  · apply ops_goal_pending _ _ _ hX hn
    intro e
    rcases hX0 with rfl | rfl <;> cases hw <;> simp
  · apply ops_goal_released _ _ _ hX
    · rcases hX0 with rfl | rfl <;> cases hw <;> decide
    · rcases hX0 with rfl | rfl <;> cases hw <;> decide
    · intro e
      rcases hX0 with rfl | rfl <;> cases hw <;> simp [cleanup_ops]
  · apply ops_goal_released _ _ _ hX
    · rcases hX0 with rfl | rfl <;> cases hw <;> simp [cleanup_ops, List.count_cons]
    · rcases hX0 with rfl | rfl <;> cases hw <;> simp
    · intro e he
      have : e = errno := by
        rcases hX0 with rfl | rfl <;> cases hw <;> simpa [cleanup_ops] using he
      rw [this]; exact hs
  · apply ops_goal_released _ _ _ hX
    · rcases hX0 with rfl | rfl <;> cases hw <;> decide
    · rcases hX0 with rfl | rfl <;> cases hw <;> decide
    · intro e
      rcases hX0 with rfl | rfl <;> cases hw <;> simp [cleanup_ops]
  · apply ops_goal_released _ _ _ hX
    · rcases hX0 with rfl | rfl <;> cases hw <;> decide
    · rcases hX0 with rfl | rfl <;> cases hw <;> decide
    · intro e
      rcases hX0 with rfl | rfl <;> cases hw <;> simp [cleanup_ops]

/-- C9: in every run of `main`: if it returns and the input container was
opened, then the input is closed exactly once and every other resource that
was acquired (decoder context, hardware device context reference, packet,
output file) is released exactly once; and if opening the output file fails
with some errno, `main` does return, its status is `-errno` (negative, errno
being positive), the input had been opened and all of the above holds (the
input is not leaked). -/
theorem C9_resources_released_once (E : Env) (argc : Int) (argv : List String) (fuel : Nat) :
    (∀ status, (main E argc argv fuel).1 = some status →
        ResOp.open_input ∈ res_ops (main E argc argv fuel).2.trace →
        released_once (main E argc argv fuel).2.trace)
    ∧ (∀ errno, ResOp.fopen_failed errno ∈ res_ops (main E argc argv fuel).2.trace →
        (main E argc argv fuel).1 = some (-(errno : Int))
        ∧ (0 < errno → -(errno : Int) < 0)
        ∧ ResOp.open_input ∈ res_ops (main E argc argv fuel).2.trace
        ∧ released_once (main E argc argv fuel).2.trace) := by
  suffices hmain :
      (∀ status, (main E argc argv fuel).1 = some status →
          ResOp.open_input ∈ res_ops (main E argc argv fuel).2.trace →
          released_once (main E argc argv fuel).2.trace)
      ∧ (∀ errno, ResOp.fopen_failed errno ∈ res_ops (main E argc argv fuel).2.trace →
          (main E argc argv fuel).1 = some (-(errno : Int))
          ∧ ResOp.open_input ∈ res_ops (main E argc argv fuel).2.trace
          ∧ released_once (main E argc argv fuel).2.trace) by
    refine ⟨hmain.1, fun errno he => ?_⟩
    obtain ⟨h1, h2, h3⟩ := hmain.2 errno he
    exact ⟨h1, fun hpos => by omega, h2, h3⟩
  have hinit := init_decoder_res_ops E State.start
  by_cases hargc : argc < 3
  · simp only [main, hargc, if_true]
    exact ops_goal_closed _ _ [] rfl (by simp) (by simp)
  simp only [main, hargc, if_false]
  revert hinit
  generalize init_decoder E State.start = r0
  intro hinit
  rcases r0 with ⟨dec, st0⟩
  have hX0 : ∃ X0, res_ops st0.trace = X0 ∧ (X0 = [] ∨ X0 = [ResOp.hw_create, ResOp.hw_unref]) := by
    rcases hinit with h | h
    · exact ⟨[], by simpa [State.start, res_ops] using h, Or.inl rfl⟩
    · exact ⟨_, by simpa [State.start, res_ops] using h, Or.inr rfl⟩
  obtain ⟨X0, hst0, hX0⟩ := hX0
  cases dec with
  | none =>
    simp only []
    apply ops_goal_closed _ _ X0 hst0
    · rcases hX0 with rfl | rfl <;> simp
    · intro e; rcases hX0 with rfl | rfl <;> simp
  | some decoder =>
    simp only []
    generalize argv.getD 1 "" = path
    by_cases hopen : E.avformat_open_input st0.trace path < 0
    · simp only [hopen, if_true]
      apply ops_goal_closed _ _ X0
      · simp only [log_trace, res_ops_append, hst0]
        simp [res_ops, res_op, hopen]
      · rcases hX0 with rfl | rfl <;> simp
      · intro e; rcases hX0 with rfl | rfl <;> simp
    simp only [hopen, if_false]
    have hop : res_ops (st0.log (Event.avformat_open_input path
        (E.avformat_open_input st0.trace path))).trace
          = X0 ++ [ResOp.open_input] := by
      simp only [log_trace, res_ops_append, hst0]
      simp [res_ops, res_op, not_lt.1 hopen]
    generalize st0.log (Event.avformat_open_input path
        (E.avformat_open_input st0.trace path)) = st1 at hop ⊢
    by_cases hinfo : E.avformat_find_stream_info st1.trace < 0
    · simp only [hinfo, if_true]
      apply ops_goal_released _ _ (X0 ++ [ResOp.open_input] ++ [ResOp.close_input])
      · simp only [Prod.map, id, cleanup_res_ops, log_trace, res_ops_append, hop]
        simp [res_ops, res_op, cleanup_ops]
      · rcases hX0 with rfl | rfl <;> decide
      · rcases hX0 with rfl | rfl <;> decide
      · intro e; rcases hX0 with rfl | rfl <;> simp
    simp only [hinfo, if_false]
    have hop2 : res_ops (st1.log (Event.avformat_find_stream_info
        (E.avformat_find_stream_info st1.trace))).trace = X0 ++ [ResOp.open_input] := by
      simp only [log_trace, res_ops_append, hop]
      simp [res_ops, res_op]
    generalize st1.log (Event.avformat_find_stream_info
        (E.avformat_find_stream_info st1.trace)) = st2 at hop2 ⊢
    by_cases hvid : find_video_stream (E.streams st2.trace) 0 = -1
    · simp only [hvid, if_true]
      apply ops_goal_released _ _ (X0 ++ [ResOp.open_input] ++ [ResOp.close_input])
      · simp only [Prod.map, id, cleanup_res_ops, log_trace, res_ops_append, hop2]
        simp [cleanup_ops]
      · rcases hX0 with rfl | rfl <;> decide
      · rcases hX0 with rfl | rfl <;> decide
      · intro e; rcases hX0 with rfl | rfl <;> simp
    simp only [hvid, if_false]
    cases hctx : E.avcodec_alloc_context3 st2.trace with
    | false =>
      simp only [Bool.not_false, if_true]
      apply ops_goal_released _ _ (X0 ++ [ResOp.open_input] ++ [ResOp.close_input])
      · simp only [Prod.map, id, cleanup_res_ops, log_trace, res_ops_append, hop2]
        simp [res_ops, res_op, cleanup_ops]
      · rcases hX0 with rfl | rfl <;> decide
      · rcases hX0 with rfl | rfl <;> decide
      · intro e; rcases hX0 with rfl | rfl <;> simp
    | true =>
      simp only [Bool.not_true, Bool.false_eq_true, if_false]
      have hop3 : res_ops (st2.log (Event.avcodec_alloc_context3 true)).trace
          = X0 ++ [ResOp.open_input, ResOp.alloc_ctx] := by
        simp only [log_trace, res_ops_append, hop2]
        simp [res_ops, res_op]
      generalize st2.log (Event.avcodec_alloc_context3 true) = st3 at hop3 ⊢
      by_cases hpar : E.avcodec_parameters_to_context st3.trace < 0
      · simp only [hpar, if_true]
        apply ops_goal_released _ _
          (X0 ++ [ResOp.open_input, ResOp.alloc_ctx] ++ [ResOp.free_ctx, ResOp.close_input])
        · simp only [Prod.map, id, cleanup_res_ops, log_trace, res_ops_append, hop3]
          simp [res_ops, res_op, cleanup_ops]
        · rcases hX0 with rfl | rfl <;> decide
        · rcases hX0 with rfl | rfl <;> decide
        · intro e; rcases hX0 with rfl | rfl <;> simp
      simp only [hpar, if_false]
      have hop4 : res_ops (st3.log (Event.avcodec_parameters_to_context
          (E.avcodec_parameters_to_context st3.trace))).trace
            = X0 ++ [ResOp.open_input, ResOp.alloc_ctx] := by
        simp only [log_trace, res_ops_append, hop3]
        simp [res_ops, res_op]
      generalize st3.log (Event.avcodec_parameters_to_context
          (E.avcodec_parameters_to_context st3.trace)) = st4 at hop4 ⊢
      by_cases hname : (decoder.name == "h264_videotoolbox") = true
      · simp only [hname, if_true]
        by_cases hcr : E.av_hwdevice_ctx_create st4.trace < 0
        · simp only [hcr, if_true]
          apply ops_goal_released _ _
            (X0 ++ [ResOp.open_input, ResOp.alloc_ctx] ++ [ResOp.free_ctx, ResOp.close_input])
          · simp only [Prod.map, id, cleanup_res_ops, log_trace, res_ops_append, hop4]
            simp [res_ops, res_op, cleanup_ops, hcr]
          · rcases hX0 with rfl | rfl <;> decide
          · rcases hX0 with rfl | rfl <;> decide
          · intro e; rcases hX0 with rfl | rfl <;> simp
        simp only [hcr, if_false]
        apply main_open_decode_goal E argv _ _ true fuel _ X0 hX0
        show res_ops ((st4.trace ++ [Event.av_hwdevice_ctx_create _]) ++ [Event.av_buffer_ref _])
          = _
        simp only [res_ops_append, hop4]
        simp [res_ops, res_op, not_lt.1 hcr]
      · simp only [hname, if_false]
        apply main_open_decode_goal E argv _ _ false fuel _ X0 hX0
        rw [hop4]
        simp

/-- C9 at two concrete runs: the output path cannot be opened (status `-13`,
input closed once), and a complete run with the hardware decoder. -/
theorem C9_resources_released_once_witness :
    (main Env.unwritable 3 sample_argv 5).1 = some (-13)
    ∧ released_once (main Env.unwritable 3 sample_argv 5).2.trace
    ∧ released_once (main Env.sample_hw 3 sample_argv 5).2.trace := by
  have h1 := (C9_resources_released_once Env.unwritable 3 sample_argv 5).2 13 (by decide)
  have h2 := (C9_resources_released_once Env.sample_hw 3 sample_argv 5).1 AVERROR_EOF
    (by decide) (by decide)
  exact ⟨h1.1, h1.2.2.2, h2⟩

end HwDecode
